import Mathlib

/-!
# Verification of the svg-gen numerical geometry core

Shallow embedding, over the real numbers, of the numerical geometry engine of
the svg-gen repository: the dense matrix utilities and SVD-based linear solver
(src/matrix/matrix.js and the svd.js module it imports), the geometry module
(src/geometry/geometry.js), the arc conversion module (src/geometry/ellipse.js)
and the perspective helpers (src/geometry/perspective.js).

Conventions of the embedding:

* JavaScript numbers are embedded as real numbers (type ℝ) for the code paths
  whose claims concern in-range finite arithmetic.  A separate type `JSNum`
  embeds the IEEE special values (NaN and the infinities) for the claims that
  are specifically about division by zero and square roots of negative numbers.
* Matrices are embedded as a structure carrying the row count `m`, the column
  count `n` and a total entry function; every matrix operation exercised by the
  claims stays inside the stored bounds, where this representation agrees with
  the JavaScript array representation.  A second, list-based representation
  `MatL` is used for the claim about the dimension checks of `Mult`, because
  that claim is precisely about out-of-range accesses.
* JavaScript `throw` is embedded with `Except JSErr`; geometric "no result"
  returns (`null`) are embedded with `Option`.
* The file `svd.js`, imported by `src/matrix/matrix.js`, is not part of the
  repository snapshot; its definition below is modelled from the specification
  (one-sided Jacobi with an iteration cap of 100 and epsilon 1e-10) and is
  clearly marked as such.
-/

open Real

set_option maxHeartbeats 4000000

/-- A 2D point with named fields, as used throughout geometry.js. -/
structure P2 where
  x : ℝ
  y : ℝ


/-- A 3D eye position record `{x, y, z}`. -/
structure Eye where
  x : ℝ
  y : ℝ
  z : ℝ

/-- JavaScript `Math.atan2 y x`: the angle of the point `(x, y)` in `(-π, π]`.
Embedded following the IEEE branch structure (signed zeros, which ℝ cannot
represent, are collapsed onto plain zero). -/
noncomputable def atan2 (y x : ℝ) : ℝ :=
  if 0 < x then Real.arctan (y / x)
  else if x < 0 then
    (if 0 ≤ y then Real.arctan (y / x) + π else Real.arctan (y / x) - π)
  else if 0 < y then π / 2
  else if y < 0 then -(π / 2)
  else 0

/-- JavaScript truncation toward zero, used by the `%` remainder operator. -/
noncomputable def jsTrunc (x : ℝ) : ℤ :=
  if 0 ≤ x then ⌊x⌋ else ⌈x⌉

/-- JavaScript `%` remainder: same sign as the dividend. -/
noncomputable def jsMod (a b : ℝ) : ℝ :=
  a - b * (jsTrunc (a / b) : ℝ)

/-- JavaScript `Math.min` over a spread nonempty list (empty list defaults
to 0; the sources only apply it to lists of at least two points). -/
noncomputable def jsMinList : List ℝ → ℝ
  | [] => 0
  | h :: t => t.foldl min h

/-- JavaScript `Math.max` over a spread nonempty list. -/
noncomputable def jsMaxList : List ℝ → ℝ
  | [] => 0
  | h :: t => t.foldl max h

/-- Errors thrown by the embedded JavaScript code.  `jsError` is an explicit
`throw new Error(msg)`; `referenceError` is the host error raised when an
undefined identifier is read; `typeError` is the host error raised when a
property of `undefined` is accessed (out-of-range row access). -/
inductive JSErr where
  | jsError (msg : String)
  | referenceError
  | typeError


/-- Dense matrix as entry function plus dimensions, mirroring the JavaScript
`Matrix` class (an array of rows with `m`/`n` fields).  All uses by the
embedded pipelines stay inside the stored bounds. -/
structure Mat where
  m : ℕ
  n : ℕ
  e : ℕ → ℕ → ℝ

namespace Mat

/-- Matrix product, `Matrix.prototype.Mult` (matrix × matrix path):
`ret[i][j] = Σ_{k < this.n} this[i][k] * b[k][j]`. -/
noncomputable def Mult (a b : Mat) : Mat :=
  ⟨a.m, b.n, fun i j => ∑ k ∈ Finset.range a.n, a.e i k * b.e k j⟩

/-- Matrix × vector product used by `Matrix.SVDSolve` via `MultMatrixVector`
(the length check of the JavaScript code is treated separately in the
list-based embedding `MatL`). -/
noncomputable def MultVec (a : Mat) (v : ℕ → ℝ) : ℕ → ℝ :=
  fun i => ∑ j ∈ Finset.range a.n, a.e i j * v j

/-- `Matrix.prototype.Transpose`. -/
def Transpose (a : Mat) : Mat :=
  ⟨a.n, a.m, fun i j => a.e j i⟩

/-- `Matrix.Identity(n)`. -/
def Identity (n : ℕ) : Mat :=
  ⟨n, n, fun i j => if i = j then 1 else 0⟩

/-- `Matrix.FromDiagonalArray(diagonal)`: square diagonal matrix from a list
of diagonal values (entry function with length). -/
def FromDiagonalArray (k : ℕ) (d : ℕ → ℝ) : Mat :=
  ⟨k, k, fun i j => if i = j then d i else 0⟩

/-- `Matrix.prototype.det` for a 2 × 2 matrix (the 2 × 2 branch of the
JavaScript `det`). -/
def det2 (a : Mat) : ℝ :=
  a.e 0 0 * a.e 1 1 - a.e 0 1 * a.e 1 0

/-- `Matrix.prototype.det` for a 3 × 3 matrix (the 3 × 3 branch of the
JavaScript `det`). -/
def det3 (a : Mat) : ℝ :=
  a.e 0 0 * a.e 1 1 * a.e 2 2 +
  a.e 0 1 * a.e 1 2 * a.e 2 0 +
  a.e 0 2 * a.e 1 0 * a.e 2 1 -
  a.e 0 2 * a.e 1 1 * a.e 2 0 -
  a.e 0 0 * a.e 1 2 * a.e 2 1 -
  a.e 0 1 * a.e 1 0 * a.e 2 2

/-- Build a matrix from a list of rows, as `new Matrix(arrayOfRows)`:
`m` is the number of rows, `n` the length of the first row. -/
def ofRows (rows : List (List ℝ)) : Mat :=
  ⟨rows.length, (rows.headD []).length, fun i j => (rows.getD i []).getD j 0⟩

end Mat

/-! ## The SVD of svd.js, modelled from the specification

`src/matrix/matrix.js` imports its singular value decomposition from
`./svd.js`, a file that is not part of the repository snapshot.  The
definitions in this section are therefore modelled from the specification:
the one-sided Jacobi eigenvalue method that repeatedly zeroes the largest
off-diagonal entry (of the implicit Gram matrix of the working columns) via a
plane rotation, capped at a fixed iteration budget of 100 with a convergence
epsilon of 1e-10, returning the best approximation found on cap exhaustion.
The returned record `{q, u, v}` follows the shape consumed by
`Matrix.prototype.SVD` and the test suite: `q` holds the `n` nonnegative
singular values (column norms), `u` is `m × n` with normalized columns
(a zero column is left as the zero column), and `v` is the `n × n`
accumulated rotation, so that `A = u · diag(q) · vᵀ` on convergence. -/

/-- Convergence epsilon of the Jacobi iteration. -/
noncomputable def svdEps : ℝ := 1e-10

/-- Dot product of columns `p` and `q` of `A`: the `(p,q)` entry of the Gram
matrix `AᵀA` of the working matrix. -/
noncomputable def colDot (A : Mat) (p q : ℕ) : ℝ :=
  ∑ i ∈ Finset.range A.m, A.e i p * A.e i q

/-- The ordered list of column index pairs `p < q < n` scanned for the
largest off-diagonal entry. -/
def pairList (n : ℕ) : List (ℕ × ℕ) :=
  (List.range n).flatMap fun p => ((List.range n).drop (p + 1)).map fun q => (p, q)

/-- Scan for the off-diagonal Gram entry of largest magnitude, starting from
magnitude `0` at pair `(0, 0)` and updating on strict increase. -/
noncomputable def findMaxPair (A : Mat) : ℝ × ℕ × ℕ :=
  (pairList A.n).foldl
    (fun acc pq =>
      let d := |colDot A pq.1 pq.2|
      if acc.1 < d then (d, pq.1, pq.2) else acc)
    (0, 0, 0)

/-- Apply the plane rotation with cosine `c` and sine `s` to columns `p` and
`q` of `A`. -/
def rotateCols (A : Mat) (p q : ℕ) (c s : ℝ) : Mat :=
  ⟨A.m, A.n, fun i j =>
    if j = p then c * A.e i p - s * A.e i q
    else if j = q then s * A.e i p + c * A.e i q
    else A.e i j⟩

/-- One Jacobi sweep step: rotate the pair of columns with the largest Gram
off-diagonal entry by the angle that zeroes that entry, accumulating the same
rotation into `v`. -/
noncomputable def svdStep (st : Mat × Mat) : Mat × Mat :=
  let u := st.1
  let v := st.2
  let pq := (findMaxPair u).2
  let p := pq.1
  let q := pq.2
  let theta := 0.5 * atan2 (2 * colDot u p q) (colDot u q q - colDot u p p)
  let c := Real.cos theta
  let s := Real.sin theta
  (rotateCols u p q c s, rotateCols v p q c s)

/-- The capped Jacobi iteration: stop when the largest off-diagonal Gram
entry falls below `svdEps`, or when the fuel (iteration budget 100) runs
out, returning the best approximation found. -/
noncomputable def svdLoop : ℕ → Mat × Mat → Mat × Mat
  | 0, st => st
  | fuel + 1, st =>
    if (findMaxPair st.1).1 < svdEps then st else svdLoop fuel (svdStep st)

/-- The record `{q, u, v}` returned by the modelled svd.js. -/
structure SVDRaw where
  q : ℕ → ℝ
  u : Mat
  v : Mat

/-- Modelled from the spec: the svd.js entry point (the file is absent from
the snapshot).  Runs the capped one-sided Jacobi iteration from the input
matrix and the identity, then reads the singular values off as column norms
and normalizes the columns of the working matrix. -/
noncomputable def svdJS (A : Mat) : SVDRaw :=
  let st := svdLoop 100 (A, Mat.Identity A.n)
  let w := st.1
  let qv := fun j => Real.sqrt (colDot w j j)
  { q := qv
    u := ⟨A.m, A.n, fun i j => w.e i j / qv j⟩
    v := st.2 }

/-- The record `{U, S, V}` returned by `Matrix.prototype.SVD`. -/
structure SVDRec where
  U : Mat
  S : Mat
  V : Mat

namespace Mat

/-- `Matrix.prototype.SVD` (matrix.js): wraps the svd.js result, with `S` the
square diagonal matrix `Matrix.FromDiagonalArray(q)` of the `n` singular
values. -/
noncomputable def SVD (A : Mat) : SVDRec :=
  let r := svdJS A
  ⟨r.u, Mat.FromDiagonalArray A.n r.q, r.v⟩

/-- `Matrix.SVDSolve(svd, B)` (matrix.js): pseudo-inverse solve; reciprocals
are taken only for diagonal entries of magnitude above 1e-10, and the result
is `V · S⁺ · Uᵀ · B`. -/
noncomputable def SVDSolve (svd : SVDRec) (B : ℕ → ℝ) : ℕ → ℝ :=
  let minDim := min svd.S.m svd.S.n
  let Sinv : Mat :=
    ⟨svd.S.n, svd.S.m, fun i j =>
      if i = j ∧ i < minDim ∧ 1e-10 < |svd.S.e i i| then 1 / svd.S.e i i else 0⟩
  ((svd.V.Mult Sinv).Mult svd.U.Transpose).MultVec B

/-- `Matrix.prototype.Solve(B)` (matrix.js). -/
noncomputable def Solve (A : Mat) (B : ℕ → ℝ) : ℕ → ℝ :=
  Mat.SVDSolve A.SVD B

end Mat

/-! ## geometry.js -/

/-- A 3D point / vector as a named triple (the sources use 3-element
arrays). -/
structure P3 where
  x : ℝ
  y : ℝ
  z : ℝ

/-- A plane `{point, normal}`. -/
structure Plane where
  point : P3
  normal : P3

/-- Conic coefficients `{A, B, C, D, E}` of `Ax² + Bxy + Cy² + Dx + Ey = 1`. -/
structure Conic where
  A : ℝ
  B : ℝ
  C : ℝ
  D : ℝ
  E : ℝ

/-- A standard-form ellipse `{cx, cy, rx, ry, theta}`. -/
structure StdEllipse where
  cx : ℝ
  cy : ℝ
  rx : ℝ
  ry : ℝ
  theta : ℝ

/-- A 2D line given by two points, `{x0, y0, x1, y1}`. -/
structure Line2 where
  x0 : ℝ
  y0 : ℝ
  x1 : ℝ
  y1 : ℝ

/-- Result of the 2D line intersection: the point and the parameter along
the second line. -/
structure InterPt where
  x : ℝ
  y : ℝ
  l : ℝ

/-- Result of the plane intersection: a point and a unit direction. -/
structure LineRes where
  direction : P3
  point : P3

/-- Result of the linear regression of geometry.js. -/
structure Regression where
  A : ℝ
  B : ℝ
  C : ℝ
  r2 : ℝ
  worstR2 : ℝ
  x1 : ℝ
  y1 : ℝ
  x2 : ℝ
  y2 : ℝ

/-- Result of `SegmentFromPoints`: best-fit bounding-box diagonal and the
worst perpendicular residual. -/
structure SegOut where
  segment : Line2
  errorSize : ℝ

namespace Geom

/-- The local `quadratic(a, b, c)` of geometry.js: real roots of
`ax² + bx + c = 0`, with the cancellation-avoiding branch on the sign of
`b`; empty list when the discriminant is negative. -/
noncomputable def quadratic (a b c : ℝ) : List ℝ :=
  let discriminant := b ^ 2 - 4 * a * c
  if discriminant < 0 then []
  else
    let sqrtDiscriminant := Real.sqrt discriminant
    if 0 ≤ b then
      [(-b - sqrtDiscriminant) / (2 * a), (2 * c) / (-b - sqrtDiscriminant)]
    else
      [(2 * c) / (-b + sqrtDiscriminant), (-b + sqrtDiscriminant) / (2 * a)]

/-- The design-matrix row `[x², xy, y², x, y]` of a sample point. -/
noncomputable def conicRow (p : P2) : List ℝ :=
  [p.x ^ 2, p.x * p.y, p.y ^ 2, p.x, p.y]

/-- `Geom.EllipseFromPoints(points)` (geometry.js): least-squares conic fit
through the SVD solver; there is no point-count validation, and the only
failure is the host TypeError raised by the `Matrix` constructor on an empty
row array. -/
noncomputable def EllipseFromPoints (points : List P2) : Except JSErr Conic :=
  if points.length = 0 then .error .typeError
  else
    let matrixRows := points.map conicRow
    let matrix := Mat.ofRows matrixRows
    let svd := matrix.SVD
    let solution := Mat.SVDSolve svd fun _ => 1
    .ok ⟨solution 0, solution 1, solution 2, solution 3, solution 4⟩

/-- `Geom.EllipseStandardForm(coefficients)` (geometry.js): reduction of the
conic `Ax² + Bxy + Cy² + Dx + Ey - 1 = 0` to center, radii and rotation via
the determinant / eigenvalue method.  The destructuring `[l1, l2]` of the
root list is embedded with `getD` (the degenerate empty-roots case is covered
by the IEEE-faithful `JSNum` embedding further below). -/
noncomputable def EllipseStandardForm (co : Conic) : StdEllipse :=
  let A := co.A
  let B := co.B
  let C := co.C
  let D := co.D
  let E := co.E
  let F : ℝ := -1
  let AQ := Mat.ofRows [[A, B / 2, D / 2], [B / 2, C, E / 2], [D / 2, E / 2, F]]
  let A33 := Mat.ofRows [[A, B / 2], [B / 2, C]]
  let d0 := B ^ 2 - 4 * A * C
  let b := A + C
  let c := A * C - (B / 2) ^ 2
  let roots := quadratic 1 (-b) c
  let l1 := roots.getD 0 0
  let l2 := roots.getD 1 0
  let x0 := (2 * C * D - B * E) / d0
  let y0 := (2 * A * E - B * D) / d0
  let theta := 0.5 * atan2 (-B) (C - A)
  let K := -(AQ.det3 / A33.det2)
  ⟨x0, y0, Real.sqrt (K / l1), Real.sqrt (K / l2), theta⟩

/-- `Geom.PerspectiveXYProjection(eye, affinePoints)` (geometry.js): throws
unless the matrix has exactly 4 rows; otherwise maps each column `(x,y,z,·)`
through the eye-centered perspective divide, with no special case at
`z = eye.z`. -/
noncomputable def PerspectiveXYProjection (eye : Eye) (affinePoints : Mat) :
    Except JSErr (List P2) :=
  if affinePoints.m ≠ 4 then .error (.jsError "Affine points matrix must have 4 rows.")
  else
    .ok <| (List.range affinePoints.n).map fun j =>
      let x := affinePoints.e 0 j
      let y := affinePoints.e 1 j
      let z := affinePoints.e 2 j
      let scale := eye.z / (eye.z - z)
      ⟨eye.x + scale * (x - eye.x), eye.y + scale * (y - eye.y)⟩

/-- `Geom.LinearRegression(points)` (geometry.js): best-fit line
`Ax + By + C = 0` with goodness of fit; throws on fewer than two points or
on an all-identical point set. -/
noncomputable def LinearRegression (points : List P2) : Except JSErr Regression :=
  let n : ℝ := points.length
  if points.length < 2 then
    .error (.jsError "At least two points are required for linear regression.")
  else
    let sumX := (points.map P2.x).sum
    let sumY := (points.map P2.y).sum
    let sumXY := (points.map fun p => p.x * p.y).sum
    let sumX2 := (points.map fun p => p.x * p.x).sum
    let sumY2 := (points.map fun p => p.y * p.y).sum
    let meanX := sumX / n
    let meanY := sumY / n
    let denominatorX := sumX2 - n * meanX ^ 2
    let denominatorY := sumY2 - n * meanY ^ 2
    if denominatorX = 0 ∧ denominatorY = 0 then
      .error (.jsError "All points are identical; linear regression is undefined.")
    else
      let abc : ℝ × ℝ × ℝ :=
        if denominatorY ≤ denominatorX then
          let slope := (sumXY - n * meanX * meanY) / denominatorX
          let intercept := meanY - slope * meanX
          (-slope, 1, -intercept)
        else
          let slope := (sumXY - n * meanX * meanY) / denominatorY
          let intercept := meanX - slope * meanY
          (1, -slope, -intercept)
      let A := abc.1
      let B := abc.2.1
      let C := abc.2.2
      let ssTotal := sumY2 - n * meanY ^ 2
      let ssResidual :=
        (points.map fun p => (p.y - -(A * p.x + C) / B) ^ 2).sum
      let r2 := if ssTotal = 0 then 1 else 1 - ssResidual / ssTotal
      let worstR2 :=
        points.foldl (fun worst p => max worst |p.y - -(A * p.x + C) / B|) 0
      let x1 := jsMinList (points.map P2.x)
      let x2 := jsMaxList (points.map P2.x)
      .ok ⟨A, B, C, r2, worstR2, x1, -(A * x1 + C) / B, x2, -(A * x2 + C) / B⟩

/-- The sample angle `(i · 2π) / 8` of the `i`-th of the 8 ellipse sample
points. -/
noncomputable def sampleAngle (i : ℕ) : ℝ := ((i : ℝ) * (2 * π)) / 8

/-- The 8 × 4 sample-point row list of `EllipseWithPerspective`. -/
noncomputable def sampleRows (cx cy rx ry : ℝ) : List (List ℝ) :=
  (List.range 8).map fun i =>
    [cx + rx * Real.cos (sampleAngle i), cy + ry * Real.sin (sampleAngle i), 0, 1]

/-- Result record of `Geom.EllipseWithPerspective`. -/
structure EWPOut where
  ellipse : StdEllipse
  regression : Regression

/-- `Geom.EllipseWithPerspective(cx, cy, rx, ry, eye, transform)`
(geometry.js): samples 8 points on the source ellipse, transforms and
projects them, and returns the standard-form fit of the projection together
with the linear regression of the projected points. -/
noncomputable def EllipseWithPerspective (cx cy rx ry : ℝ) (eye : Eye) (transform : Mat) :
    Except JSErr EWPOut := do
  if transform.m ≠ 4 ∨ transform.n ≠ 4 then
    throw (.jsError "Transform matrix must be 4x4.")
  else
    let points := (Mat.ofRows (sampleRows cx cy rx ry)).Transpose
    let transformed := transform.Mult points
    let perspectivePoints ← PerspectiveXYProjection eye transformed
    let regression ← LinearRegression perspectivePoints
    let standard ← EllipseFromPoints perspectivePoints
    let ellipse := EllipseStandardForm standard
    return ⟨ellipse, regression⟩

/-- The perpendicular distance helper of `SegmentFromPoints` (geometry.js,
current revision): distance from a point to the infinite line through a
segment, with dedicated vertical and horizontal branches. -/
noncomputable def perpendicularDistance (p : P2) (line : Line2) : ℝ :=
  if line.x0 = line.x1 then |p.x - line.x0|
  else if line.y0 = line.y1 then |p.y - line.y0|
  else
    |(line.y1 - line.y0) * p.x - (line.x1 - line.x0) * p.y +
        line.x1 * line.y0 - line.y1 * line.x0| /
      Real.sqrt ((line.y1 - line.y0) ^ 2 + (line.x1 - line.x0) ^ 2)

/-- `Geom.SegmentFromPoints(points)` (geometry.js, current revision): the
bounding-box diagonal of smaller worst perpendicular residual, with that
residual as `errorSize`; throws on fewer than two points. -/
noncomputable def SegmentFromPoints (points : List P2) : Except JSErr SegOut :=
  if points.length < 2 then
    .error (.jsError "At least two points are required to calculate a segment.")
  else
    let xMin := jsMinList (points.map P2.x)
    let xMax := jsMaxList (points.map P2.x)
    let yMin := jsMinList (points.map P2.y)
    let yMax := jsMaxList (points.map P2.y)
    let diagonal1 : Line2 := ⟨xMin, yMin, xMax, yMax⟩
    let diagonal2 : Line2 := ⟨xMin, yMax, xMax, yMin⟩
    let errorSize1 := jsMaxList (points.map fun p => perpendicularDistance p diagonal1)
    let errorSize2 := jsMaxList (points.map fun p => perpendicularDistance p diagonal2)
    if errorSize1 ≤ errorSize2 then .ok ⟨diagonal1, errorSize1⟩
    else .ok ⟨diagonal2, errorSize2⟩

/-- The cross product of the two plane normals (computed twice by the
source, identically, as `direction` and `cross`). -/
noncomputable def planesCross (plane1 plane2 : Plane) : P3 :=
  ⟨plane1.normal.y * plane2.normal.z - plane1.normal.z * plane2.normal.y,
   plane1.normal.z * plane2.normal.x - plane1.normal.x * plane2.normal.z,
   plane1.normal.x * plane2.normal.y - plane1.normal.y * plane2.normal.x⟩

/-- Right-hand sides `n1 · p1` and `n2 · p2` of the two plane equations. -/
noncomputable def planesD1 (plane1 : Plane) : ℝ :=
  plane1.normal.x * plane1.point.x + plane1.normal.y * plane1.point.y +
    plane1.normal.z * plane1.point.z

/-- The point of the `z = 0` branch of `LineFromIntersectionOfPlanes`:
solve `[[n1x, n1y], [n2x, n2y]] (x, y) = (d1, d2)`. -/
noncomputable def planePointZ (plane1 plane2 : Plane) : P3 :=
  let mz := Mat.ofRows [[plane1.normal.x, plane1.normal.y],
                        [plane2.normal.x, plane2.normal.y]]
  let sol := mz.Solve fun i => [planesD1 plane1, planesD1 plane2].getD i 0
  ⟨sol 0, sol 1, 0⟩

/-- The point of the `y = 0` branch of `LineFromIntersectionOfPlanes`:
solve `[[n1x, n1z], [n2x, n2z]] (x, z) = (d1, d2)`. -/
noncomputable def planePointY (plane1 plane2 : Plane) : P3 :=
  let my := Mat.ofRows [[plane1.normal.x, plane1.normal.z],
                        [plane2.normal.x, plane2.normal.z]]
  let sol := my.Solve fun i => [planesD1 plane1, planesD1 plane2].getD i 0
  ⟨sol 0, 0, sol 1⟩

/-- The point of the `x = 0` branch of `LineFromIntersectionOfPlanes`:
solve `[[n1y, n1z], [n2y, n2z]] (y, z) = (d1, d2)`. -/
noncomputable def planePointX (plane1 plane2 : Plane) : P3 :=
  let mx := Mat.ofRows [[plane1.normal.y, plane1.normal.z],
                        [plane2.normal.y, plane2.normal.z]]
  let sol := mx.Solve fun i => [planesD1 plane1, planesD1 plane2].getD i 0
  ⟨0, sol 0, sol 1⟩

/-- `Geom.LineFromIntersectionOfPlanes(plane1, plane2)` (geometry.js):
`null` when the cross product of the normals has magnitude below 1e-10;
otherwise the normalized cross product as direction, together with a point
solved from a 2 × 2 subsystem chosen by testing the cross-product components
in the fixed order z, y, x against the 1e-10 threshold. -/
noncomputable def LineFromIntersectionOfPlanes (plane1 plane2 : Plane) :
    Option LineRes :=
  let direction := planesCross plane1 plane2
  let directionMagnitude :=
    Real.sqrt (direction.x ^ 2 + direction.y ^ 2 + direction.z ^ 2)
  if directionMagnitude < 1e-10 then none
  else
    let dirN : P3 := ⟨direction.x / directionMagnitude,
                      direction.y / directionMagnitude,
                      direction.z / directionMagnitude⟩
    let cross := planesCross plane1 plane2
    let pt :=
      if 1e-10 < |cross.z| then planePointZ plane1 plane2
      else if 1e-10 < |cross.y| then planePointY plane1 plane2
      else planePointX plane1 plane2
    some ⟨dirN, pt⟩

/-- `Geom.PointFromIntersectionOfLinesInPlane(l0, l1)` (geometry.js):
intersection of two infinite lines, `null` when the determinant is within
1e-10 of zero; `l` is the parameter of the intersection along `l1`. -/
noncomputable def PointFromIntersectionOfLinesInPlane (l0 l1 : Line2) :
    Option InterPt :=
  let a1 := l0.y1 - l0.y0
  let b1 := l0.x0 - l0.x1
  let c1 := a1 * l0.x0 + b1 * l0.y0
  let a2 := l1.y1 - l1.y0
  let b2 := l1.x0 - l1.x1
  let c2 := a2 * l1.x0 + b2 * l1.y0
  let determinant := a1 * b2 - a2 * b1
  if |determinant| < 1e-10 then none
  else
    let x := (b2 * c1 - b1 * c2) / determinant
    let y := (a1 * c2 - a2 * c1) / determinant
    let l := ((x - l1.x0) * (l1.x1 - l1.x0) + (y - l1.y0) * (l1.y1 - l1.y0)) /
      ((l1.x1 - l1.x0) ^ 2 + (l1.y1 - l1.y0) ^ 2)
    some ⟨x, y, l⟩

/-- The signed side test of `PolygonFromLineIntersectionPolygon`:
`(x1 - x0)(y - y0) - (y1 - y0)(x - x0)`. -/
noncomputable def sideOfLine (line : Line2) (x y : ℝ) : ℝ :=
  (line.x1 - line.x0) * (y - line.y0) - (line.y1 - line.y0) * (x - line.x0)

/-- The angle of a polygon vertex about the centroid, used as sort key. -/
noncomputable def centroidAngle (c p : P2) : ℝ :=
  atan2 (p.y - c.y) (p.x - c.x)

/-- Insert a vertex into a list sorted by ascending centroid angle. -/
noncomputable def insertCCW (c : P2) (p : P2) : List P2 → List P2
  | [] => [p]
  | q :: t =>
    if centroidAngle c p ≤ centroidAngle c q then p :: q :: t
    else q :: insertCCW c p t

/-- Sort vertices by ascending centroid angle (the JavaScript
`Array.prototype.sort` with comparator `angleA - angleB`; any comparison
sort yields this order since the key comparator is consistent). -/
noncomputable def sortCCW (c : P2) (l : List P2) : List P2 :=
  l.foldr (insertCCW c) []

/-- `Geom.PolygonFromLineIntersectionPolygon(line, sidePoint, poly)`
(geometry.js): keep the vertices on the side of `sidePoint`, insert the
in-segment intersections of each edge with the line, and sort the result
counter-clockwise about the centroid of the kept and inserted points. -/
noncomputable def PolygonFromLineIntersectionPolygon
    (line : Line2) (sidePoint : P2) (poly : List P2) : List P2 :=
  let sideOfSidePoint := sideOfLine line sidePoint.x sidePoint.y
  let result := (List.range poly.length).flatMap fun i =>
    let current := poly.getD i ⟨0, 0⟩
    let next := poly.getD ((i + 1) % poly.length) ⟨0, 0⟩
    let currentSide := sideOfLine line current.x current.y
    let kept := if 0 ≤ currentSide * sideOfSidePoint then [current] else []
    let inter := PointFromIntersectionOfLinesInPlane line
      ⟨current.x, current.y, next.x, next.y⟩
    let ins := match inter with
      | some it => if 0 ≤ it.l ∧ it.l ≤ 1 then [(⟨it.x, it.y⟩ : P2)] else []
      | none => []
    kept ++ ins
  let centroid : P2 :=
    result.foldl
      (fun acc p => ⟨acc.x + p.x / result.length, acc.y + p.y / result.length⟩)
      ⟨0, 0⟩
  sortCCW centroid result

end Geom

/-- Refinement definition following the words of the specification (not the
source): the intersection point claimed by the spec is solved from the 2 × 2
subsystem obtained by zeroing the coordinate of the *largest-magnitude*
component of the normals cross product (ties resolved in the z, y, x order
of the source). -/
noncomputable def pointViaLargestCrossComponent (plane1 plane2 : Plane) : P3 :=
  let cross := Geom.planesCross plane1 plane2
  if |cross.y| ≤ |cross.z| ∧ |cross.x| ≤ |cross.z| then
    Geom.planePointZ plane1 plane2
  else if |cross.x| ≤ |cross.y| then
    Geom.planePointY plane1 plane2
  else
    Geom.planePointX plane1 plane2

/-! ## algebra.js, ellipse.js and perspective.js -/

namespace Algebra

/-- `Algebra.QuadraticRoots(a, b, c, assumeRealRoots)` (algebra.js): the
stable quadratic solver; with `assumeRealRoots` a negative discriminant is
clamped to zero.  The two roots are returned in ascending order (the
JavaScript numeric sort of a two-element array). -/
noncomputable def QuadraticRoots (a b c : ℝ) (assumeRealRoots : Bool) : List ℝ :=
  let disc0 := b ^ 2 - 4 * a * c
  if disc0 < 0 ∧ ¬assumeRealRoots then []
  else
    let discriminant := if disc0 < 0 then 0 else disc0
    let sqrtDiscriminant := Real.sqrt discriminant
    let r :=
      if 0 ≤ b then
        ((-b - sqrtDiscriminant) / (2 * a), (2 * c) / (-b - sqrtDiscriminant))
      else
        ((2 * c) / (-b + sqrtDiscriminant), (-b + sqrtDiscriminant) / (2 * a))
    [min r.1 r.2, max r.1 r.2]

end Algebra

/-- A center-parameterized arc `{cx, cy, rx, ry, phi, theta1, deltaTheta}`. -/
structure CenterArc where
  cx : ℝ
  cy : ℝ
  rx : ℝ
  ry : ℝ
  phi : ℝ
  theta1 : ℝ
  deltaTheta : ℝ

/-- An endpoint-parameterized arc `{x1, y1, x2, y2, fa, fs}`. -/
structure EndpointArc where
  x1 : ℝ
  y1 : ℝ
  x2 : ℝ
  y2 : ℝ
  fa : ℝ
  fs : ℝ

/-- A perspective record `{eye, transform}`. -/
structure Persp where
  eye : Eye
  transform : Mat

namespace Ellipse

/-- The inner `vectorAngle(ux, uy, vx, vy)` of
`arcEndpointToCenterParameters` (ellipse.js). -/
noncomputable def vectorAngle (ux uy vx vy : ℝ) : ℝ :=
  let dot := ux * vx + uy * vy
  let len := Real.sqrt ((ux * ux + uy * uy) * (vx * vx + vy * vy))
  let ang := Real.arccos (max (-1) (min 1 (dot / len)))
  if ux * vy - uy * vx < 0 then -ang else ang

/-- `Ellipse.arcEndpointToCenterParameters(x1, y1, rx, ry, phi, fa, fs, x2,
y2)` (ellipse.js): the standard SVG endpoint-to-center conversion, with
radius correction when the requested radii cannot span the chord. -/
noncomputable def arcEndpointToCenterParameters
    (x1 y1 rx ry phi fa fs x2 y2 : ℝ) : CenterArc :=
  let cosPhi := Real.cos phi
  let sinPhi := Real.sin phi
  let dx := (x1 - x2) / 2
  let dy := (y1 - y2) / 2
  let x1p := cosPhi * dx + sinPhi * dy
  let y1p := -sinPhi * dx + cosPhi * dy
  let x1pSq := x1p * x1p
  let y1pSq := y1p * y1p
  let lambda := x1pSq / (rx * rx) + y1pSq / (ry * ry)
  let rxC := if 1 < lambda then rx * Real.sqrt lambda else rx
  let ryC := if 1 < lambda then ry * Real.sqrt lambda else ry
  let rxSq := rxC * rxC
  let rySq := ryC * ryC
  let sign : ℝ := if fa = fs then -1 else 1
  let sq0 := (rxSq * rySq - rxSq * y1pSq - rySq * x1pSq) /
    (rxSq * y1pSq + rySq * x1pSq)
  let sq := if sq0 < 0 then 0 else sq0
  let coef := sign * Real.sqrt sq
  let cxp := coef * (rxC * y1p / ryC)
  let cyp := coef * (-(ryC * x1p) / rxC)
  let cx := cosPhi * cxp - sinPhi * cyp + (x1 + x2) / 2
  let cy := sinPhi * cxp + cosPhi * cyp + (y1 + y2) / 2
  let v1x := (x1p - cxp) / rxC
  let v1y := (y1p - cyp) / ryC
  let v2x := (-x1p - cxp) / rxC
  let v2y := (-y1p - cyp) / ryC
  let theta1 := vectorAngle 1 0 v1x v1y
  let dT0 := vectorAngle v1x v1y v2x v2y
  let dT :=
    if fs = 0 ∧ 0 < dT0 then dT0 - 2 * π
    else if ¬fs = 0 ∧ dT0 < 0 then dT0 + 2 * π
    else dT0
  ⟨cx, cy, rxC, ryC, phi, jsMod theta1 (2 * π), jsMod dT (2 * π)⟩

/-- `Ellipse.arcCenterToEndpointParameters(cx, cy, rx, ry, phi, theta1,
deltaTheta)` (ellipse.js): the standard SVG center-to-endpoint conversion,
recomputing the large-arc and sweep flags from the sweep angle. -/
noncomputable def arcCenterToEndpointParameters
    (cx cy rx ry phi theta1 deltaTheta : ℝ) : EndpointArc :=
  let cosPhi := Real.cos phi
  let sinPhi := Real.sin phi
  let x1p := rx * Real.cos theta1
  let y1p := ry * Real.sin theta1
  let x2p := rx * Real.cos (theta1 + deltaTheta)
  let y2p := ry * Real.sin (theta1 + deltaTheta)
  ⟨cosPhi * x1p - sinPhi * y1p + cx,
   sinPhi * x1p + cosPhi * y1p + cy,
   cosPhi * x2p - sinPhi * y2p + cx,
   sinPhi * x2p + cosPhi * y2p + cy,
   if π < |deltaTheta| then 1 else 0,
   if 0 ≤ deltaTheta then 1 else 0⟩

/-- The matrix built by `new Matrix(arrayOfVectors)` (matrix.js,
`matrixFromArrayOfVector`): the vectors become the *columns*. -/
def ofVectorColumns (vecs : List (List ℝ)) : Mat :=
  ⟨(vecs.headD []).length, vecs.length, fun i j => (vecs.getD j []).getD i 0⟩

/-- `Ellipse.EllipseStandardForm(coefficients)` (ellipse.js): identical to
the geometry.js reduction except that the eigenvalues come from
`Algebra.QuadraticRoots(1, -b, c, true)` (clamped discriminant, roots in
ascending order). -/
noncomputable def EllipseStandardForm (co : Conic) : StdEllipse :=
  let A := co.A
  let B := co.B
  let C := co.C
  let D := co.D
  let E := co.E
  let F : ℝ := -1
  let AQ := Mat.ofRows [[A, B / 2, D / 2], [B / 2, C, E / 2], [D / 2, E / 2, F]]
  let A33 := Mat.ofRows [[A, B / 2], [B / 2, C]]
  let d0 := B ^ 2 - 4 * A * C
  let b := A + C
  let c := A * C - (B / 2) ^ 2
  let roots := Algebra.QuadraticRoots 1 (-b) c true
  let l1 := roots.getD 0 0
  let l2 := roots.getD 1 0
  let x0 := (2 * C * D - B * E) / d0
  let y0 := (2 * A * E - B * D) / d0
  let theta := 0.5 * atan2 (-B) (C - A)
  let K := -(AQ.det3 / A33.det2)
  ⟨x0, y0, Real.sqrt (K / l1), Real.sqrt (K / l2), theta⟩

/-- Result record of `Ellipse.EllipseWithPerspective` (ellipse.js):
`{ellipse, line, perspectivePoints}`. -/
structure EWP3Out where
  ellipse : StdEllipse
  line : SegOut
  perspectivePoints : List P2

/-- `Ellipse.EllipseWithPerspective(cx, cy, rx, ry, eye, transform)`
(ellipse.js): same sampling and projection as the geometry.js variant, but
the degenerate-view fallback is the bounding-box segment fit rather than the
linear regression. -/
noncomputable def EllipseWithPerspective (cx cy rx ry : ℝ) (eye : Eye) (transform : Mat) :
    Except JSErr EWP3Out := do
  if transform.m ≠ 4 ∨ transform.n ≠ 4 then
    throw (.jsError "Transform matrix must be 4x4.")
  else
    let points := ofVectorColumns (Geom.sampleRows cx cy rx ry)
    let transformed := transform.Mult points
    let perspectivePoints ← Geom.PerspectiveXYProjection eye transformed
    let line ← Geom.SegmentFromPoints perspectivePoints
    let standard ← Geom.EllipseFromPoints perspectivePoints
    let ellipse := EllipseStandardForm standard
    return ⟨ellipse, line, perspectivePoints⟩

/-- `PointWithPerspective(x, y, eye, transform)` (perspective.js): transform
and project the single point `(x, y, 0, 1)`. -/
noncomputable def PointWithPerspective (x y : ℝ) (eye : Eye) (transform : Mat) :
    Except JSErr P2 := do
  if transform.m ≠ 4 ∨ transform.n ≠ 4 then
    throw (.jsError "Transform matrix must be 4x4.")
  else
    let point := (Mat.ofRows [[x, y, 0, 1]]).Transpose
    let transformed := transform.Mult point
    let perspectivePoints ← Geom.PerspectiveXYProjection eye transformed
    return perspectivePoints.getD 0 ⟨0, 0⟩

/-- Result record of `Ellipse.ArcWithPerspective` in the arc branch: the
debugging field `_ellipse` and the arc argument tuple (which the source
mutates in place and returns). -/
structure ArcRet where
  dbgEllipse : StdEllipse
  arc : List ℝ

/-- `Ellipse.ArcWithPerspective(cur, av, perspective)` (ellipse.js).  The
mutation of the argument array `av` is embedded by state passing: the second
component of the result is the final value of `av`.  In the degenerate
(line) branch the source executes `ret.line = {p0, p1}`, where `p0` and `p1`
are identifiers that are defined nowhere in the module, so the branch raises
a ReferenceError instead of returning a line record. -/
noncomputable def ArcWithPerspective (cur : P2) (av : List ℝ) (persp : Persp) :
    Except JSErr (ArcRet × List ℝ) := do
  let rx := av.getD 0 0
  let ry := av.getD 1 0
  let xAxisRot := av.getD 2 0
  let largeArcFlag := av.getD 3 0
  let sweepFlag := av.getD 4 0
  let x := av.getD 5 0
  let y := av.getD 6 0
  let el := arcEndpointToCenterParameters cur.x cur.y rx ry xAxisRot
    largeArcFlag sweepFlag x y
  let ewp ← EllipseWithPerspective el.cx el.cy el.rx el.ry persp.eye persp.transform
  let pt0 ← PointWithPerspective cur.x cur.y persp.eye persp.transform
  let pt1 ← PointWithPerspective x y persp.eye persp.transform
  if ewp.line.errorSize < 0.99 then
    -- `ret.line = {p0,p1}`: p0 and p1 are undefined identifiers
    throw .referenceError
  else
    let w0 : P2 := ⟨(pt0.x - el.cx) / el.rx, (pt0.y - el.cy) / el.ry⟩
    let w1 : P2 := ⟨(pt1.x - el.cx) / el.rx, (pt1.y - el.cy) / el.ry⟩
    let theta0 := atan2 w0.y w0.x
    let theta1 := atan2 w1.y w1.x
    let deltaTheta := theta1 - theta0
    let newArc := arcCenterToEndpointParameters ewp.ellipse.cx ewp.ellipse.cy
      ewp.ellipse.rx ewp.ellipse.ry ewp.ellipse.theta theta0 deltaTheta
    let avOut := ((((((av.set 0 ewp.ellipse.rx).set 1 ewp.ellipse.ry).set 2
      (-ewp.ellipse.theta * (180 / π))).set 3 newArc.fa).set 4 newArc.fs).set 5
      pt1.x).set 6 pt1.y
    return (⟨ewp.ellipse, avOut⟩, avOut)

end Ellipse

/-! ## IEEE-faithful number embedding

For the claims that are specifically about division by zero, square roots of
negative numbers and the resulting non-finite values, JavaScript numbers are
embedded as `JSNum`: a real number, one of the two infinities, or NaN.
The arithmetic tables follow IEEE 754 / ECMAScript; the signed zeros of
IEEE, which ℝ cannot distinguish, are collapsed onto plain zero (all
divisions by zero reached by the claims have a `+0` denominator). -/

inductive JSNum where
  | fin (x : ℝ)
  | inf
  | ninf
  | nan

namespace JSNum

/-- IEEE negation. -/
def neg' : JSNum → JSNum
  | fin x => fin (-x)
  | inf => ninf
  | ninf => inf
  | nan => nan

/-- IEEE addition. -/
noncomputable def add' : JSNum → JSNum → JSNum
  | fin a, fin b => fin (a + b)
  | fin _, inf => inf
  | inf, fin _ => inf
  | inf, inf => inf
  | fin _, ninf => ninf
  | ninf, fin _ => ninf
  | ninf, ninf => ninf
  | inf, ninf => nan
  | ninf, inf => nan
  | nan, _ => nan
  | _, nan => nan

/-- IEEE multiplication. -/
noncomputable def mul' : JSNum → JSNum → JSNum
  | fin a, fin b => fin (a * b)
  | fin a, inf => if 0 < a then inf else if a < 0 then ninf else nan
  | inf, fin a => if 0 < a then inf else if a < 0 then ninf else nan
  | fin a, ninf => if 0 < a then ninf else if a < 0 then inf else nan
  | ninf, fin a => if 0 < a then ninf else if a < 0 then inf else nan
  | inf, inf => inf
  | inf, ninf => ninf
  | ninf, inf => ninf
  | ninf, ninf => inf
  | nan, _ => nan
  | _, nan => nan

/-- IEEE division (zero denominators are `+0`). -/
noncomputable def div' : JSNum → JSNum → JSNum
  | fin a, fin b =>
    if b = 0 then (if 0 < a then inf else if a < 0 then ninf else nan)
    else fin (a / b)
  | fin _, inf => fin 0
  | fin _, ninf => fin 0
  | inf, fin b => if 0 ≤ b then inf else ninf
  | ninf, fin b => if 0 ≤ b then ninf else inf
  | inf, inf => nan
  | inf, ninf => nan
  | ninf, inf => nan
  | ninf, ninf => nan
  | nan, _ => nan
  | _, nan => nan

noncomputable instance : Add JSNum := ⟨add'⟩
noncomputable instance : Mul JSNum := ⟨mul'⟩
noncomputable instance : Div JSNum := ⟨div'⟩
instance : Neg JSNum := ⟨neg'⟩

/-- IEEE subtraction `a + (-b)`. -/
noncomputable def sub' (a b : JSNum) : JSNum := a + (-b)

noncomputable instance : Sub JSNum := ⟨sub'⟩

/-- JavaScript `Math.sqrt`. -/
noncomputable def jsSqrt : JSNum → JSNum
  | fin x => if x < 0 then nan else fin (Real.sqrt x)
  | inf => inf
  | ninf => nan
  | nan => nan

/-- The JavaScript `<` comparison (false on any NaN operand). -/
def ltP : JSNum → JSNum → Prop
  | fin a, fin b => a < b
  | fin _, inf => True
  | ninf, fin _ => True
  | ninf, inf => True
  | _, _ => False

/-- The JavaScript `<=` comparison (false on any NaN operand). -/
def leP : JSNum → JSNum → Prop
  | fin a, fin b => a ≤ b
  | fin _, inf => True
  | ninf, fin _ => True
  | ninf, inf => True
  | inf, inf => True
  | ninf, ninf => True
  | _, _ => False

noncomputable instance (a b : JSNum) : Decidable (ltP a b) := Classical.propDecidable _
noncomputable instance (a b : JSNum) : Decidable (leP a b) := Classical.propDecidable _

/-- JavaScript `Number.isFinite`. -/
def isFiniteB : JSNum → Bool
  | fin _ => true
  | _ => false

/-- JavaScript `Math.atan2` on embedded numbers. -/
noncomputable def atan2JS : JSNum → JSNum → JSNum
  | nan, _ => nan
  | _, nan => nan
  | fin yv, fin xv => fin (atan2 yv xv)
  | inf, fin _ => fin (π / 2)
  | ninf, fin _ => fin (-(π / 2))
  | fin _, inf => fin 0
  | fin yv, ninf => fin (if 0 ≤ yv then π else -π)
  | inf, inf => fin (π / 4)
  | inf, ninf => fin (3 * π / 4)
  | ninf, inf => fin (-(π / 4))
  | ninf, ninf => fin (-(3 * π / 4))

end JSNum

/-- Conic coefficients over the IEEE embedding. -/
structure ConicJS where
  A : JSNum
  B : JSNum
  C : JSNum
  D : JSNum
  E : JSNum

/-- Standard-form ellipse over the IEEE embedding. -/
structure StdEllipseJS where
  cx : JSNum
  cy : JSNum
  rx : JSNum
  ry : JSNum
  theta : JSNum

/-- 3 × 3 determinant formula of `Matrix.prototype.det` over the IEEE
embedding (entries in row-major order). -/
noncomputable def jsDet3 (a00 a01 a02 a10 a11 a12 a20 a21 a22 : JSNum) : JSNum :=
  a00 * a11 * a22 + a01 * a12 * a20 + a02 * a10 * a21 -
    a02 * a11 * a20 - a00 * a12 * a21 - a01 * a10 * a22

/-- 2 × 2 determinant formula of `Matrix.prototype.det` over the IEEE
embedding. -/
noncomputable def jsDet2 (a00 a01 a10 a11 : JSNum) : JSNum :=
  a00 * a11 - a01 * a10

/-- The local `quadratic` of geometry.js over the IEEE embedding.  The
returned pair is the destructured `[l1, l2]`; when the discriminant is
negative the source returns `[]` and the destructuring yields `undefined`,
which subsequent arithmetic coerces to NaN, embedded as `(nan, nan)`. -/
noncomputable def quadraticJS (a b c : JSNum) : JSNum × JSNum :=
  let discriminant := b * b - JSNum.fin 4 * a * c
  if discriminant.ltP (JSNum.fin 0) then (JSNum.nan, JSNum.nan)
  else
    let s := JSNum.jsSqrt discriminant
    if (JSNum.fin 0).leP b then
      ((-b - s) / (JSNum.fin 2 * a), JSNum.fin 2 * c / (-b - s))
    else
      (JSNum.fin 2 * c / (-b + s), (-b + s) / (JSNum.fin 2 * a))

/-- `Geom.EllipseStandardForm` (geometry.js) over the IEEE embedding: the
same arithmetic as the real-number embedding, but with the JavaScript
behavior on degenerate inputs (NaN and infinite components instead of any
form of error; the function body contains no throw and no validation). -/
noncomputable def EllipseStandardFormJS (co : ConicJS) : StdEllipseJS :=
  let A := co.A
  let B := co.B
  let C := co.C
  let D := co.D
  let E := co.E
  let F : JSNum := .fin (-1)
  let two : JSNum := .fin 2
  let d0 := B * B - JSNum.fin 4 * A * C
  let b := A + C
  let c := A * C - B / two * (B / two)
  let roots := quadraticJS (.fin 1) (-b) c
  let l1 := roots.1
  let l2 := roots.2
  let x0 := (two * C * D - B * E) / d0
  let y0 := (two * A * E - B * D) / d0
  let theta := JSNum.fin 0.5 * JSNum.atan2JS (-B) (C - A)
  let AQdet := jsDet3 A (B / two) (D / two) (B / two) C (E / two) (D / two) (E / two) F
  let A33det := jsDet2 A (B / two) (B / two) C
  let K := -(AQdet / A33det)
  ⟨x0, y0, JSNum.jsSqrt (K / l1), JSNum.jsSqrt (K / l2), theta⟩

/-- Eye record over the IEEE embedding. -/
structure EyeJS where
  x : JSNum
  y : JSNum
  z : JSNum

/-- 2D point over the IEEE embedding. -/
structure P2JS where
  x : JSNum
  y : JSNum

/-- Matrix over the IEEE embedding (entry function with dimensions). -/
structure MatJS where
  m : ℕ
  n : ℕ
  e : ℕ → ℕ → JSNum

/-- Projection of one matrix column `(x, y, z, ·)` by the perspective
divide, exactly as in the loop body of `Geom.PerspectiveXYProjection`. -/
noncomputable def projectColumnJS (eye : EyeJS) (x y z : JSNum) : P2JS :=
  let scale := eye.z / (eye.z - z)
  ⟨eye.x + scale * (x - eye.x), eye.y + scale * (y - eye.y)⟩

/-- `Geom.PerspectiveXYProjection(eye, affinePoints)` (geometry.js) over the
IEEE embedding: throws exactly when the input does not have 4 rows, and
otherwise applies the unguarded perspective divide to every column. -/
noncomputable def PerspectiveXYProjectionJS (eye : EyeJS) (affinePoints : MatJS) :
    Except JSErr (List P2JS) :=
  if affinePoints.m ≠ 4 then .error (.jsError "Affine points matrix must have 4 rows.")
  else
    .ok <| (List.range affinePoints.n).map fun j =>
      projectColumnJS eye (affinePoints.e 0 j) (affinePoints.e 1 j) (affinePoints.e 2 j)

/-! ## List-based matrix embedding for the dimension checks of Mult -/

/-- Matrix as stored: `m`/`n` fields plus the actual array of rows, for the
claim about the dimension checking of `Matrix.prototype.Mult`, which is
about out-of-range accesses. -/
structure MatL where
  m : ℕ
  n : ℕ
  rows : List (List ℝ)

/-- `MultMatrixVector(M, v)` (matrix.js): the matrix × vector path of
`Mult`, which checks `M.n === v.length` and throws otherwise. -/
noncomputable def MultMatrixVector (M : MatL) (v : List ℝ) : Except JSErr (List ℝ) :=
  if M.n ≠ v.length then
    .error (.jsError "Matrix columns must match vector length")
  else
    .ok <| (List.range M.m).map fun i =>
      ∑ j ∈ Finset.range M.n, (M.rows.getD i []).getD j 0 * v.getD j 0

/-- The matrix × matrix path of `Matrix.prototype.Mult` (matrix.js): no
dimension check.  `ret[i][j] = Σ_{k < a.n} a[i][k] * b[k][j]`; when
`a.n > b.rows.length` and the loops execute, the access `b[k][j]` reads a
property of `undefined` and raises a host TypeError; when `a.n ≤ b.m` the
product is returned with no complaint, summing over only the first `a.n`
rows of `b`. -/
noncomputable def MultMM (a b : MatL) : Except JSErr MatL :=
  if 0 < a.m ∧ 0 < b.n ∧ b.rows.length < a.n then .error .typeError
  else
    .ok ⟨a.m, b.n,
      (List.range a.m).map fun i =>
        (List.range b.n).map fun j =>
          ∑ k ∈ Finset.range a.n, (a.rows.getD i []).getD k 0 * (b.rows.getD k []).getD j 0⟩

/-- Membership of a point in a plane: the plane equation
`normal ⬝ pt = normal ⬝ point` holds. -/
noncomputable def onPlane (pl : Plane) (pt : P3) : Prop :=
  pl.normal.x * pt.x + pl.normal.y * pt.y + pl.normal.z * pt.z = Geom.planesD1 pl

/-! ## Basic facts about the embedding -/

theorem cos_atan2 (y x : ℝ) (h : ¬(x = 0 ∧ y = 0)) :
    Real.cos (atan2 y x) = x / Real.sqrt (x ^ 2 + y ^ 2) := by
  have hs : (0:ℝ) < x ^ 2 + y ^ 2 := by
    rcases not_and_or.mp h with hx | hy
    · positivity
    · positivity
  have hsq : 0 < Real.sqrt (x ^ 2 + y ^ 2) := Real.sqrt_pos.mpr hs
  have hdiv : ∀ hx : x ≠ 0, Real.sqrt (1 + (y / x) ^ 2) = Real.sqrt (x ^ 2 + y ^ 2) / |x| := by
    intro hx
    have h1 : 1 + (y / x) ^ 2 = (x ^ 2 + y ^ 2) / x ^ 2 := by field_simp
    rw [h1, Real.sqrt_div hs.le, Real.sqrt_sq_eq_abs]
  rw [atan2]
  rcases lt_trichotomy 0 x with hx | hx | hx
  · rw [if_pos hx, Real.cos_arctan, hdiv hx.ne', abs_of_pos hx]
    rw [div_div_eq_mul_div, one_mul]
  · subst hx
    simp only [lt_irrefl, if_false]
    have hy : ¬ y = 0 := fun hy => h ⟨rfl, hy⟩
    rcases lt_trichotomy 0 y with hy0 | hy0 | hy0
    · rw [if_pos hy0, Real.cos_pi_div_two]
      norm_num
    · exact absurd hy0.symm hy
    · rw [if_neg (by linarith : ¬ (0:ℝ) < y), if_pos hy0, Real.cos_neg,
        Real.cos_pi_div_two]
      norm_num
  · have hnx : ¬ 0 < x := asymm hx
    rw [if_neg hnx, if_pos hx]
    have hcos : Real.cos (Real.arctan (y / x)) = 1 / Real.sqrt (1 + (y / x) ^ 2) :=
      Real.cos_arctan (y / x)
    have habs : |x| = -x := abs_of_neg hx
    by_cases hy : 0 ≤ y
    · rw [if_pos hy, Real.cos_add_pi, hcos, hdiv hx.ne, habs]
      field_simp
    · rw [if_neg hy, Real.cos_sub_pi, hcos, hdiv hx.ne, habs]
      field_simp

theorem sin_atan2 (y x : ℝ) (h : ¬(x = 0 ∧ y = 0)) :
    Real.sin (atan2 y x) = y / Real.sqrt (x ^ 2 + y ^ 2) := by
  have hs : (0:ℝ) < x ^ 2 + y ^ 2 := by
    rcases not_and_or.mp h with hx | hy
    · positivity
    · positivity
  have hsq : 0 < Real.sqrt (x ^ 2 + y ^ 2) := Real.sqrt_pos.mpr hs
  have hsqs : Real.sqrt (x ^ 2 + y ^ 2) ^ 2 = x ^ 2 + y ^ 2 := Real.sq_sqrt hs.le
  have hdiv : ∀ hx : x ≠ 0, Real.sqrt (1 + (y / x) ^ 2) = Real.sqrt (x ^ 2 + y ^ 2) / |x| := by
    intro hx
    have h1 : 1 + (y / x) ^ 2 = (x ^ 2 + y ^ 2) / x ^ 2 := by field_simp
    rw [h1, Real.sqrt_div hs.le, Real.sqrt_sq_eq_abs]
  rw [atan2]
  rcases lt_trichotomy 0 x with hx | hx | hx
  · rw [if_pos hx, Real.sin_arctan, hdiv hx.ne', abs_of_pos hx]
    rw [div_div_div_eq, mul_comm y x, mul_div_mul_left y _ hx.ne']
  · subst hx
    simp only [lt_irrefl, if_false]
    have hy : ¬ y = 0 := fun hy => h ⟨rfl, hy⟩
    rcases lt_trichotomy 0 y with hy0 | hy0 | hy0
    · rw [if_pos hy0, Real.sin_pi_div_two]
      rw [show (0:ℝ)^2 + y^2 = y^2 by ring, Real.sqrt_sq hy0.le, div_self hy]
    · exact absurd hy0.symm hy
    · rw [if_neg (by linarith : ¬ (0:ℝ) < y), if_pos hy0, Real.sin_neg,
        Real.sin_pi_div_two]
      rw [show (0:ℝ)^2 + y^2 = y^2 by ring, Real.sqrt_sq_eq_abs, abs_of_neg hy0]
      field_simp
  · have hnx : ¬ 0 < x := asymm hx
    rw [if_neg hnx, if_pos hx]
    have hsin : Real.sin (Real.arctan (y / x)) = (y / x) / Real.sqrt (1 + (y / x) ^ 2) :=
      Real.sin_arctan (y / x)
    have habs : |x| = -x := abs_of_neg hx
    have key : -(y * -x / (x * Real.sqrt (x ^ 2 + y ^ 2))) = y / Real.sqrt (x ^ 2 + y ^ 2) := by
      rw [show -(y * -x / (x * Real.sqrt (x ^ 2 + y ^ 2))) =
        x * y / (x * Real.sqrt (x ^ 2 + y ^ 2)) by ring]
      rw [mul_div_mul_left y (Real.sqrt (x ^ 2 + y ^ 2)) hx.ne]
    by_cases hy : 0 ≤ y
    · rw [if_pos hy, Real.sin_add_pi, hsin, hdiv hx.ne, habs]
      rw [div_div_div_eq]
      exact key
    · rw [if_neg hy, Real.sin_sub_pi, hsin, hdiv hx.ne, habs]
      rw [div_div_div_eq]
      exact key

theorem atan2_one_pos : atan2 2 1 = Real.arctan 2 := by
  rw [atan2, if_pos one_pos]; norm_num

theorem atan2_one_neg : atan2 (-2) 1 = -Real.arctan 2 := by
  rw [atan2, if_pos one_pos]; norm_num [Real.arctan_neg]

theorem atan2_negone_pos : atan2 2 (-1) = π - Real.arctan 2 := by
  rw [atan2]
  rw [if_neg (by norm_num), if_pos (by norm_num : (-1:ℝ) < 0), if_pos (by norm_num : (0:ℝ) ≤ 2)]
  norm_num [Real.arctan_neg]
  ring

theorem atan2_negone_neg : atan2 (-2) (-1) = Real.arctan 2 - π := by
  rw [atan2]
  rw [if_neg (by norm_num), if_pos (by norm_num : (-1:ℝ) < 0), if_neg (by norm_num : ¬ (0:ℝ) ≤ -2)]
  norm_num

/-- C5: `ClipPolygonToLine` on the line `x = 2` (as the two points `(2,0)`,
`(2,1)`), keeping the side of the reference point `(0,0)` (positive side
sign), over the square `[(0,0),(4,0),(4,4),(0,4)]`, returns exactly
`[(0,0),(2,0),(2,4),(0,4)]`, sorted counter-clockwise about the centroid. -/
theorem c5_clip_polygon_square :
    Geom.PolygonFromLineIntersectionPolygon ⟨2, 0, 2, 1⟩ ⟨0, 0⟩
      [⟨0, 0⟩, ⟨4, 0⟩, ⟨4, 4⟩, ⟨0, 4⟩] =
      [⟨0, 0⟩, ⟨2, 0⟩, ⟨2, 4⟩, ⟨0, 4⟩] := by
  have harct0 : 0 ≤ Real.arctan 2 := by
    rw [show (0:ℝ) = Real.arctan 0 from Real.arctan_zero.symm]
    exact Real.arctan_strictMono.monotone (by norm_num)
  have harcth : Real.arctan 2 < π / 2 := Real.arctan_lt_pi_div_two 2
  have hresult : Geom.PolygonFromLineIntersectionPolygon ⟨2, 0, 2, 1⟩ ⟨0, 0⟩
      [⟨0, 0⟩, ⟨4, 0⟩, ⟨4, 4⟩, ⟨0, 4⟩] =
      Geom.sortCCW ⟨1, 2⟩ [⟨0, 0⟩, ⟨2, 0⟩, ⟨2, 4⟩, ⟨0, 4⟩] := by
    rw [Geom.PolygonFromLineIntersectionPolygon]
    norm_num [Geom.sideOfLine, Geom.PointFromIntersectionOfLinesInPlane,
      List.range_succ, List.flatMap_cons, List.flatMap_nil]
  rw [hresult]
  have ha00 : Geom.centroidAngle ⟨1, 2⟩ ⟨0, 0⟩ = Real.arctan 2 - π := by
    rw [Geom.centroidAngle]; norm_num [atan2_negone_neg]
  have ha20 : Geom.centroidAngle ⟨1, 2⟩ ⟨2, 0⟩ = -Real.arctan 2 := by
    rw [Geom.centroidAngle]; norm_num [atan2_one_neg]
  have ha24 : Geom.centroidAngle ⟨1, 2⟩ ⟨2, 4⟩ = Real.arctan 2 := by
    rw [Geom.centroidAngle]; norm_num [atan2_one_pos]
  have ha04 : Geom.centroidAngle ⟨1, 2⟩ ⟨0, 4⟩ = π - Real.arctan 2 := by
    rw [Geom.centroidAngle]; norm_num [atan2_negone_pos]
  have h1 : Real.arctan 2 - π ≤ -Real.arctan 2 := by linarith
  have h2 : -Real.arctan 2 ≤ Real.arctan 2 := by linarith
  have h3 : Real.arctan 2 ≤ π - Real.arctan 2 := by linarith
  rw [Geom.sortCCW]
  simp only [List.foldr_cons, List.foldr_nil]
  rw [Geom.insertCCW]
  rw [Geom.insertCCW, ha24, ha04, if_pos h3]
  rw [Geom.insertCCW, ha20, ha24, if_pos h2]
  rw [Geom.insertCCW, ha00, ha20, if_pos h1]

namespace JSNum

@[simp] theorem fin_add_fin (a b : ℝ) : fin a + fin b = fin (a + b) := rfl

@[simp] theorem neg_fin (a : ℝ) : -(fin a) = fin (-a) := rfl

@[simp] theorem neg_ninf : -ninf = inf := rfl

@[simp] theorem fin_sub_fin (a b : ℝ) : fin a - fin b = fin (a - b) := by
  show sub' _ _ = _
  rw [sub']
  show fin (a + -b) = _
  ring_nf

@[simp] theorem fin_mul_fin (a b : ℝ) : fin a * fin b = fin (a * b) := rfl

theorem fin_div_fin (a b : ℝ) (h : b ≠ 0) : fin a / fin b = fin (a / b) := by
  show div' _ _ = _
  rw [div', if_neg h]

theorem fin_div_zero_pos (a : ℝ) (h : 0 < a) : fin a / fin 0 = inf := by
  show div' _ _ = _
  rw [div', if_pos rfl, if_pos h]

theorem fin_div_zero_neg (a : ℝ) (h : a < 0) : fin a / fin 0 = ninf := by
  show div' _ _ = _
  rw [div', if_pos rfl, if_neg (lt_asymm h), if_pos h]

@[simp] theorem zero_div_zero : fin 0 / fin 0 = nan := by
  show div' _ _ = _
  rw [div', if_pos rfl, if_neg (lt_irrefl 0), if_neg (lt_irrefl 0)]

@[simp] theorem nan_div (a : JSNum) : nan / a = nan := by
  show div' _ _ = _
  cases a <;> rfl

@[simp] theorem div_nan (a : JSNum) : a / nan = nan := by
  show div' _ _ = _
  cases a <;> rfl

@[simp] theorem neg_nan : -nan = nan := rfl

@[simp] theorem nan_mul (a : JSNum) : nan * a = nan := by
  show mul' _ _ = _
  cases a <;> rfl

@[simp] theorem mul_nan (a : JSNum) : a * nan = nan := by
  show mul' _ _ = _
  cases a <;> rfl

@[simp] theorem nan_add (a : JSNum) : nan + a = nan := by
  show add' _ _ = _
  cases a <;> rfl

@[simp] theorem add_nan (a : JSNum) : a + nan = nan := by
  show add' _ _ = _
  cases a <;> rfl

@[simp] theorem fin_sub_nan (a : JSNum) : a - nan = nan := by
  show add' _ _ = _
  cases a <;> rfl

theorem inf_div_fin_nonneg (b : ℝ) (h : 0 ≤ b) : inf / fin b = inf := by
  show div' _ _ = _
  rw [div', if_pos h]

theorem ninf_div_fin_nonneg (b : ℝ) (h : 0 ≤ b) : ninf / fin b = ninf := by
  show div' _ _ = _
  rw [div', if_pos h]

@[simp] theorem inf_div_inf : inf / inf = nan := rfl

@[simp] theorem jsSqrt_nan : jsSqrt nan = nan := rfl

@[simp] theorem jsSqrt_inf : jsSqrt inf = inf := rfl

theorem jsSqrt_fin_nonneg (a : ℝ) (h : 0 ≤ a) : jsSqrt (fin a) = fin (Real.sqrt a) := by
  rw [jsSqrt, if_neg (not_lt.mpr h)]

theorem jsSqrt_fin_neg (a : ℝ) (h : a < 0) : jsSqrt (fin a) = nan := by
  rw [jsSqrt, if_pos h]

theorem ltP_fin_fin (a b : ℝ) : ltP (fin a) (fin b) ↔ a < b := Iff.rfl

theorem leP_fin_fin (a b : ℝ) : leP (fin a) (fin b) ↔ a ≤ b := Iff.rfl

@[simp] theorem isFiniteB_fin (a : ℝ) : (fin a).isFiniteB = true := rfl

@[simp] theorem isFiniteB_inf : inf.isFiniteB = false := rfl

@[simp] theorem isFiniteB_ninf : ninf.isFiniteB = false := rfl

@[simp] theorem isFiniteB_nan : nan.isFiniteB = false := rfl

/-- Adding a finite number to a non-finite number stays non-finite. -/
theorem isFiniteB_fin_add (a : ℝ) (b : JSNum) : (fin a + b).isFiniteB = b.isFiniteB := by
  show (add' _ _).isFiniteB = _
  cases b <;> rfl

/-- Multiplying a non-finite number by a finite number stays non-finite. -/
theorem isFiniteB_nonfin_mul_fin (s : JSNum) (hs : s.isFiniteB = false) (d : ℝ) :
    ((s * fin d).isFiniteB : Bool) = false := by
  show (mul' _ _).isFiniteB = _
  cases s with
  | fin x => simp [isFiniteB] at hs
  | inf => rw [mul']; split_ifs <;> rfl
  | ninf => rw [mul']; split_ifs <;> rfl
  | nan => rfl

/-- Division of a nonzero-or-zero finite number by finite zero is
non-finite. -/
theorem isFiniteB_fin_div_zero (a : ℝ) : (fin a / fin 0).isFiniteB = false := by
  show (div' _ _).isFiniteB = _
  rw [div', if_pos rfl]
  split_ifs <;> rfl

end JSNum

/-- C2: for every eye and input matrix, `PerspectiveXYProjection` raises an
error exactly when the matrix does not have 4 rows; otherwise each column
`(x, y, z, ·)` maps to `(eye.x + scale·(x-eye.x), eye.y + scale·(y-eye.y))`
with `scale = eye.z/(eye.z - z)`; and at `z = eye.z` the unguarded division
produces non-finite coordinates (no error and no special case). -/
theorem c2_perspective_projection :
    (∀ (eye : EyeJS) (pts : MatJS),
      ((∃ er, PerspectiveXYProjectionJS eye pts = .error er) ↔ pts.m ≠ 4) ∧
      (pts.m = 4 →
        PerspectiveXYProjectionJS eye pts =
          .ok ((List.range pts.n).map fun j =>
            projectColumnJS eye (pts.e 0 j) (pts.e 1 j) (pts.e 2 j)))) ∧
    (∀ ex ey ez x y : ℝ,
      (projectColumnJS ⟨.fin ex, .fin ey, .fin ez⟩ (.fin x) (.fin y)
          (.fin ez)).x.isFiniteB = false ∧
      (projectColumnJS ⟨.fin ex, .fin ey, .fin ez⟩ (.fin x) (.fin y)
          (.fin ez)).y.isFiniteB = false) := by
  constructor
  · intro eye pts
    constructor
    · by_cases h : pts.m = 4 <;> simp [PerspectiveXYProjectionJS, h]
    · intro h
      simp [PerspectiveXYProjectionJS, h]
  · intro ex ey ez x y
    have hz : JSNum.fin ez - JSNum.fin ez = JSNum.fin 0 := by
      rw [JSNum.fin_sub_fin, sub_self]
    have hs : ((JSNum.fin ez / JSNum.fin 0).isFiniteB : Bool) = false :=
      JSNum.isFiniteB_fin_div_zero ez
    constructor
    · simp only [projectColumnJS, hz, JSNum.fin_sub_fin]
      rw [JSNum.isFiniteB_fin_add]
      exact JSNum.isFiniteB_nonfin_mul_fin _ hs _
    · simp only [projectColumnJS, hz, JSNum.fin_sub_fin]
      rw [JSNum.isFiniteB_fin_add]
      exact JSNum.isFiniteB_nonfin_mul_fin _ hs _

/-- Witness for C2: the projection applied at a concrete 4-row matrix, with
the 4-row hypothesis discharged. -/
theorem c2_perspective_projection_witness :
    PerspectiveXYProjectionJS ⟨.fin 0, .fin 0, .fin 10⟩ ⟨4, 1, fun _ _ => .fin 1⟩ =
      .ok ((List.range (⟨4, 1, fun _ _ => .fin 1⟩ : MatJS).n).map fun j =>
        projectColumnJS ⟨.fin 0, .fin 0, .fin 10⟩
          ((⟨4, 1, fun _ _ => .fin 1⟩ : MatJS).e 0 j)
          ((⟨4, 1, fun _ _ => .fin 1⟩ : MatJS).e 1 j)
          ((⟨4, 1, fun _ _ => .fin 1⟩ : MatJS).e 2 j)) :=
  (c2_perspective_projection.1 ⟨.fin 0, .fin 0, .fin 10⟩ ⟨4, 1, fun _ _ => .fin 1⟩).2 rfl

/-- C10: `EllipseStandardForm` is total (the embedded body is a plain
function with no throw and no validation) and signals no degeneracy: on a
hyperbolic coefficient set `K/l1 < 0` makes `rx` silent NaN; on a zero
quadratic-form determinant the center coordinates come out infinite; and on
the all-zero coefficients every one of `cx, cy, rx, ry` is NaN.  A caller
therefore cannot detect an edge-on view from this result. -/
theorem c10_standard_form_silent_nan :
    ((EllipseStandardFormJS ⟨.fin 1, .fin 0, .fin (-1), .fin 0, .fin 0⟩).rx = .nan ∧
     (EllipseStandardFormJS ⟨.fin 1, .fin 0, .fin (-1), .fin 0, .fin 0⟩).ry = .fin 1) ∧
    ((EllipseStandardFormJS ⟨.fin 1, .fin 2, .fin 1, .fin 1, .fin 0⟩).cx = .inf ∧
     (EllipseStandardFormJS ⟨.fin 1, .fin 2, .fin 1, .fin 1, .fin 0⟩).cy = .ninf ∧
     (EllipseStandardFormJS ⟨.fin 1, .fin 2, .fin 1, .fin 1, .fin 0⟩).rx = .inf) ∧
    ((EllipseStandardFormJS ⟨.fin 0, .fin 0, .fin 0, .fin 0, .fin 0⟩).cx = .nan ∧
     (EllipseStandardFormJS ⟨.fin 0, .fin 0, .fin 0, .fin 0, .fin 0⟩).cy = .nan ∧
     (EllipseStandardFormJS ⟨.fin 0, .fin 0, .fin 0, .fin 0, .fin 0⟩).rx = .nan ∧
     (EllipseStandardFormJS ⟨.fin 0, .fin 0, .fin 0, .fin 0, .fin 0⟩).ry = .nan) := by
  have h4 : Real.sqrt 4 = 2 := by
    rw [show (4:ℝ) = 2 ^ 2 by norm_num, Real.sqrt_sq]; norm_num
  refine ⟨⟨?_, ?_⟩, ⟨?_, ?_, ?_⟩, ⟨?_, ?_, ?_, ?_⟩⟩ <;>
    norm_num [EllipseStandardFormJS, quadraticJS, jsDet3, jsDet2, JSNum.ltP, JSNum.leP,
      JSNum.fin_div_fin, JSNum.fin_div_zero_pos, JSNum.fin_div_zero_neg,
      JSNum.jsSqrt_fin_nonneg, JSNum.jsSqrt_fin_neg, JSNum.inf_div_fin_nonneg,
      JSNum.ninf_div_fin_nonneg, h4]

/-- C7 counterexample: for the shape-misaligned pair `A : 2 × 2` and
`B : 3 × 2` (`A.n = 2 ≠ 3 = B.m`), `Mult` does not fail at all: it silently
returns the 2 × 2 product over the first two rows of `B`. -/
theorem c7_mult_unchecked_counterexample :
    (⟨2, 2, [[1, 0], [0, 1]]⟩ : MatL).n ≠ (⟨3, 2, [[1, 2], [3, 4], [5, 6]]⟩ : MatL).m ∧
    MultMM ⟨2, 2, [[1, 0], [0, 1]]⟩ ⟨3, 2, [[1, 2], [3, 4], [5, 6]]⟩ =
      .ok ⟨2, 2, [[1, 2], [3, 4]]⟩ := by
  refine ⟨by norm_num, ?_⟩
  rw [MultMM, if_neg (by norm_num)]
  norm_num [List.range_succ, Finset.sum_range_succ]

/-- C7 amended: only the matrix × vector path of `Mult` is
dimension-checked (it fails exactly when `A.n` differs from the vector
length); the matrix × matrix path has no check: when `A.n` is at most the
number of stored rows of `B` it returns a product (summing over the first
`A.n` rows of `B`), and when `A.n` exceeds the rows of `B` (and the loops
execute) it fails with an incidental host TypeError from the out-of-range
row access, not a dedicated dimension error. -/
theorem c7_mult_dimension_checks :
    (∀ (M : MatL) (v : List ℝ),
      (∃ er, MultMatrixVector M v = .error er) ↔ M.n ≠ v.length) ∧
    (∀ a b : MatL, a.n ≤ b.rows.length → ∃ r, MultMM a b = .ok r) ∧
    (∀ a b : MatL, 0 < a.m → 0 < b.n → b.rows.length < a.n →
      MultMM a b = .error .typeError) := by
  refine ⟨?_, ?_, ?_⟩
  · intro M v
    by_cases h : M.n = v.length <;> simp [MultMatrixVector, h]
  · intro a b h
    rw [MultMM, if_neg]
    · exact ⟨_, rfl⟩
    · push_neg
      intro _ _
      exact h
  · intro a b ha hb hlen
    rw [MultMM, if_pos ⟨ha, hb, hlen⟩]

/-- Witness for C7 amended: both matrix × matrix behaviors at concrete
inputs, hypotheses discharged. -/
theorem c7_mult_dimension_checks_witness :
    (∃ r, MultMM ⟨2, 2, [[1, 0], [0, 1]]⟩ ⟨2, 2, [[1, 2], [3, 4]]⟩ = .ok r) ∧
    MultMM ⟨1, 1, [[1]]⟩ ⟨0, 1, []⟩ = .error .typeError :=
  ⟨c7_mult_dimension_checks.2.1 ⟨2, 2, [[1, 0], [0, 1]]⟩ ⟨2, 2, [[1, 2], [3, 4]]⟩
      (by norm_num),
   c7_mult_dimension_checks.2.2 ⟨1, 1, [[1]]⟩ ⟨0, 1, []⟩ (by norm_num) (by norm_num)
      (by norm_num)⟩

/-! ## Evaluation machinery for the Jacobi iteration -/

theorem svdLoop_succ (fuel : ℕ) (st : Mat × Mat) :
    svdLoop (fuel + 1) st =
      if (findMaxPair st.1).1 < svdEps then st else svdLoop fuel (svdStep st) := rfl

theorem foldl_scan_zero (A : Mat) (l : List (ℕ × ℕ))
    (h : ∀ pq ∈ l, colDot A pq.1 pq.2 = 0) :
    l.foldl
      (fun acc pq =>
        let d := |colDot A pq.1 pq.2|
        if acc.1 < d then (d, pq.1, pq.2) else acc)
      ((0 : ℝ), (0 : ℕ), (0 : ℕ)) = (0, 0, 0) := by
  induction l with
  | nil => rfl
  | cons hd tl ih =>
    rw [List.foldl_cons]
    have hz : colDot A hd.1 hd.2 = 0 := h hd (List.mem_cons_self hd tl)
    simp only [hz, abs_zero, lt_irrefl, if_false]
    exact ih fun pq hpq => h pq (List.mem_cons_of_mem hd hpq)

/-- When every scanned column pair is orthogonal, the scan reports zero. -/
theorem findMaxPair_orth (A : Mat)
    (h : ∀ pq ∈ pairList A.n, colDot A pq.1 pq.2 = 0) :
    findMaxPair A = (0, 0, 0) := by
  rw [findMaxPair]
  exact foldl_scan_zero A _ h

/-- A working matrix with pairwise orthogonal columns makes the Jacobi loop
exit immediately. -/
theorem svdLoop_100_orth (A V : Mat)
    (h : ∀ pq ∈ pairList A.n, colDot A pq.1 pq.2 = 0) :
    svdLoop 100 (A, V) = (A, V) := by
  rw [show (100 : ℕ) = 99 + 1 from rfl, svdLoop_succ, findMaxPair_orth A h, if_pos]
  rw [svdEps]
  norm_num

@[simp] theorem Mat.ofRows_m (rows : List (List ℝ)) : (Mat.ofRows rows).m = rows.length := rfl

@[simp] theorem Mat.ofRows_n (rows : List (List ℝ)) :
    (Mat.ofRows rows).n = (rows.headD []).length := rfl

@[simp] theorem Mat.ofRows_e (rows : List (List ℝ)) (i j : ℕ) :
    (Mat.ofRows rows).e i j = (rows.getD i []).getD j 0 := rfl

@[simp] theorem Mat.Mult_m (a b : Mat) : (a.Mult b).m = a.m := rfl

@[simp] theorem Mat.Mult_n (a b : Mat) : (a.Mult b).n = b.n := rfl

@[simp] theorem Mat.Mult_e (a b : Mat) (i j : ℕ) :
    (a.Mult b).e i j = ∑ k ∈ Finset.range a.n, a.e i k * b.e k j := rfl

@[simp] theorem Mat.Transpose_m (a : Mat) : a.Transpose.m = a.n := rfl

@[simp] theorem Mat.Transpose_n (a : Mat) : a.Transpose.n = a.m := rfl

@[simp] theorem Mat.Transpose_e (a : Mat) (i j : ℕ) : a.Transpose.e i j = a.e j i := rfl

@[simp] theorem Mat.Identity_m (n : ℕ) : (Mat.Identity n).m = n := rfl

@[simp] theorem Mat.Identity_n (n : ℕ) : (Mat.Identity n).n = n := rfl

@[simp] theorem Mat.Identity_e (n i j : ℕ) :
    (Mat.Identity n).e i j = if i = j then 1 else 0 := rfl

@[simp] theorem Mat.FromDiagonalArray_m (k : ℕ) (d : ℕ → ℝ) :
    (Mat.FromDiagonalArray k d).m = k := rfl

@[simp] theorem Mat.FromDiagonalArray_n (k : ℕ) (d : ℕ → ℝ) :
    (Mat.FromDiagonalArray k d).n = k := rfl

@[simp] theorem Mat.FromDiagonalArray_e (k : ℕ) (d : ℕ → ℝ) (i j : ℕ) :
    (Mat.FromDiagonalArray k d).e i j = if i = j then d i else 0 := rfl

@[simp] theorem Mat.MultVec_apply (a : Mat) (v : ℕ → ℝ) (i : ℕ) :
    a.MultVec v i = ∑ j ∈ Finset.range a.n, a.e i j * v j := rfl

/-- Evaluation of the SVD-based solve on a nonnegative diagonal 2 × 2
system: each coordinate is the exact quotient when the diagonal entry
clears the 1e-10 pseudo-inverse threshold, and 0 otherwise. -/
theorem solve_diag2 (a b b0 b1 : ℝ) (ha : 0 ≤ a) (hb : 0 ≤ b) :
    (Mat.ofRows [[a, 0], [0, b]]).Solve (fun i => [b0, b1].getD i 0) 0 =
      (if 1e-10 < a then b0 / a else 0) ∧
    (Mat.ofRows [[a, 0], [0, b]]).Solve (fun i => [b0, b1].getD i 0) 1 =
      (if 1e-10 < b then b1 / b else 0) := by
  have hn : (Mat.ofRows [[a, 0], [0, b]]).n = 2 := rfl
  have hconv : svdLoop 100 (Mat.ofRows [[a, 0], [0, b]], Mat.Identity 2) =
      (Mat.ofRows [[a, 0], [0, b]], Mat.Identity 2) := by
    apply svdLoop_100_orth
    intro pq hpq
    rw [hn] at hpq
    have : pq = (0, 1) := by
      simpa [pairList, List.range_succ] using hpq
    subst this
    simp [colDot, Finset.sum_range_succ]
  have hq0 : Real.sqrt (colDot (Mat.ofRows [[a, 0], [0, b]]) 0 0) = a := by
    simp [colDot, Finset.sum_range_succ]
    rw [Real.sqrt_mul_self ha]
  have hq1 : Real.sqrt (colDot (Mat.ofRows [[a, 0], [0, b]]) 1 1) = b := by
    simp [colDot, Finset.sum_range_succ]
    rw [Real.sqrt_mul_self hb]
  rw [Mat.Solve, Mat.SVD, Mat.SVDSolve]
  simp only [svdJS, hn, hconv, hq0, hq1]
  constructor
  · simp [Finset.sum_range_succ, hq0, hq1, abs_of_nonneg ha, abs_of_nonneg hb]
    by_cases h0 : 1e-10 < a
    · have hane : a ≠ 0 := by intro h; rw [h] at h0; norm_num at h0
      rw [if_pos h0, if_pos h0]
      field_simp
    · rw [if_neg h0, if_neg h0]
  · simp [Finset.sum_range_succ, hq0, hq1, abs_of_nonneg ha, abs_of_nonneg hb]
    by_cases h1 : 1e-10 < b
    · have hbne : b ≠ 0 := by intro h; rw [h] at h1; norm_num at h1
      rw [if_pos h1, if_pos h1]
      field_simp
    · rw [if_neg h1, if_neg h1]

theorem sqrt_not_lt_threshold (s : ℝ) (h : ((1e-10:ℝ)) ^ 2 ≤ s) :
    ¬ (Real.sqrt s < 1e-10) := by
  intro hlt
  have h0 : (0:ℝ) ≤ s := le_trans (by norm_num) h
  have hs := Real.sq_sqrt h0
  nlinarith [Real.sqrt_nonneg s]

/-- C4 amended: `IntersectPlanes` returns `null` exactly when the cross
product of the normals has magnitude below 1e-10; otherwise it returns a
unit-length direction parallel to the cross product, together with the
point produced by the SVD pseudo-inverse solve of the chosen 2 × 2
subsystem (which need not lie on both planes when a singular value of the
subsystem falls below the 1e-10 cutoff - see the counterexample); for the
planes through the origin with normals `[1,0,0]` and `[0,1,0]` the result
is the point `[0,0,0]` with direction `[0,0,1]`. -/
theorem c4_intersect_planes_amended :
    (∀ p1 p2 : Plane,
      Geom.LineFromIntersectionOfPlanes p1 p2 = none ↔
        Real.sqrt ((Geom.planesCross p1 p2).x ^ 2 + (Geom.planesCross p1 p2).y ^ 2 +
          (Geom.planesCross p1 p2).z ^ 2) < 1e-10) ∧
    (∀ (p1 p2 : Plane) (r : LineRes), Geom.LineFromIntersectionOfPlanes p1 p2 = some r →
      Real.sqrt (r.direction.x ^ 2 + r.direction.y ^ 2 + r.direction.z ^ 2) = 1 ∧
      ∃ t : ℝ, t ≠ 0 ∧ r.direction.x = t * (Geom.planesCross p1 p2).x ∧
        r.direction.y = t * (Geom.planesCross p1 p2).y ∧
        r.direction.z = t * (Geom.planesCross p1 p2).z) ∧
    Geom.LineFromIntersectionOfPlanes ⟨⟨0, 0, 0⟩, ⟨1, 0, 0⟩⟩ ⟨⟨0, 0, 0⟩, ⟨0, 1, 0⟩⟩ =
      some ⟨⟨0, 0, 1⟩, ⟨0, 0, 0⟩⟩ := by
  refine ⟨?_, ?_, ?_⟩
  · intro p1 p2
    rw [Geom.LineFromIntersectionOfPlanes]
    by_cases h : Real.sqrt ((Geom.planesCross p1 p2).x ^ 2 + (Geom.planesCross p1 p2).y ^ 2 +
        (Geom.planesCross p1 p2).z ^ 2) < 1e-10 <;>
      simp [h]
  · intro p1 p2 r hr
    rw [Geom.LineFromIntersectionOfPlanes] at hr
    set cx := (Geom.planesCross p1 p2).x with hcx
    set cy := (Geom.planesCross p1 p2).y with hcy
    set cz := (Geom.planesCross p1 p2).z with hcz
    set m := Real.sqrt (cx ^ 2 + cy ^ 2 + cz ^ 2) with hm
    by_cases h : m < 1e-10
    · rw [if_pos h] at hr
      exact absurd hr (by simp)
    · rw [if_neg h] at hr
      have hmpos : 0 < m := lt_of_lt_of_le (by norm_num) (not_lt.mp h)
      have hs : cx ^ 2 + cy ^ 2 + cz ^ 2 = m ^ 2 := (Real.sq_sqrt (by positivity)).symm
      have hrdir : r.direction = ⟨cx / m, cy / m, cz / m⟩ := by
        cases (Option.some.injEq _ _).mp hr
        rfl
      constructor
      · rw [hrdir]
        have : (cx / m) ^ 2 + (cy / m) ^ 2 + (cz / m) ^ 2 = 1 := by
          field_simp
          linarith [hs]
        rw [this, Real.sqrt_one]
      · exact ⟨1 / m, by positivity, by rw [hrdir]; ring, by rw [hrdir]; ring,
          by rw [hrdir]; ring⟩
  · have hcross : Geom.planesCross ⟨⟨0, 0, 0⟩, ⟨1, 0, 0⟩⟩ ⟨⟨0, 0, 0⟩, ⟨0, 1, 0⟩⟩ =
        (⟨0, 0, 1⟩ : P3) := by
      rw [Geom.planesCross]; norm_num
    have hd1 : Geom.planesD1 (⟨⟨0, 0, 0⟩, ⟨1, 0, 0⟩⟩ : Plane) = 0 := by
      rw [Geom.planesD1]; norm_num
    have hd2 : Geom.planesD1 (⟨⟨0, 0, 0⟩, ⟨0, 1, 0⟩⟩ : Plane) = 0 := by
      rw [Geom.planesD1]; norm_num
    have hsol := solve_diag2 1 1 0 0 (by norm_num) (by norm_num)
    norm_num at hsol
    have hpz : Geom.planePointZ ⟨⟨0, 0, 0⟩, ⟨1, 0, 0⟩⟩ ⟨⟨0, 0, 0⟩, ⟨0, 1, 0⟩⟩ =
        (⟨0, 0, 0⟩ : P3) := by
      rw [Geom.planePointZ, hd1, hd2]
      norm_num
      exact ⟨hsol.1, hsol.2⟩
    simp only [Geom.LineFromIntersectionOfPlanes, hcross]
    norm_num [hpz]

/-- Witness for C4 amended: the unit-direction conclusion instantiated at
the concrete identity-normal planes, with the `some`-result hypothesis
discharged by the concrete evaluation. -/
theorem c4_intersect_planes_amended_witness :
    Real.sqrt (((⟨⟨0, 0, 1⟩, ⟨0, 0, 0⟩⟩ : LineRes)).direction.x ^ 2 +
        ((⟨⟨0, 0, 1⟩, ⟨0, 0, 0⟩⟩ : LineRes)).direction.y ^ 2 +
        ((⟨⟨0, 0, 1⟩, ⟨0, 0, 0⟩⟩ : LineRes)).direction.z ^ 2) = 1 ∧
    ∃ t : ℝ, t ≠ 0 ∧
      ((⟨⟨0, 0, 1⟩, ⟨0, 0, 0⟩⟩ : LineRes)).direction.x =
        t * (Geom.planesCross ⟨⟨0, 0, 0⟩, ⟨1, 0, 0⟩⟩ ⟨⟨0, 0, 0⟩, ⟨0, 1, 0⟩⟩).x ∧
      ((⟨⟨0, 0, 1⟩, ⟨0, 0, 0⟩⟩ : LineRes)).direction.y =
        t * (Geom.planesCross ⟨⟨0, 0, 0⟩, ⟨1, 0, 0⟩⟩ ⟨⟨0, 0, 0⟩, ⟨0, 1, 0⟩⟩).y ∧
      ((⟨⟨0, 0, 1⟩, ⟨0, 0, 0⟩⟩ : LineRes)).direction.z =
        t * (Geom.planesCross ⟨⟨0, 0, 0⟩, ⟨1, 0, 0⟩⟩ ⟨⟨0, 0, 0⟩, ⟨0, 1, 0⟩⟩).z :=
  c4_intersect_planes_amended.2.1 ⟨⟨0, 0, 0⟩, ⟨1, 0, 0⟩⟩ ⟨⟨0, 0, 0⟩, ⟨0, 1, 0⟩⟩
    ⟨⟨0, 0, 1⟩, ⟨0, 0, 0⟩⟩ c4_intersect_planes_amended.2.2

/-- C4 counterexample: for the ill-conditioned planes with normals
`[1e6, 0, 0]` and `[0, 1e-15, 0]` (cross product `(0, 0, 1e-9)`, magnitude
above the 1e-10 null threshold), the function returns the point `[0,0,0]`,
which does not satisfy the second plane equation: the 1e-15 singular value
of the 2 × 2 subsystem is dropped by the pseudo-inverse cutoff, so the
claim that the returned point satisfies both plane equations is false. -/
theorem c4_point_off_plane_counterexample :
    Geom.LineFromIntersectionOfPlanes ⟨⟨0, 0, 0⟩, ⟨1000000, 0, 0⟩⟩
        ⟨⟨0, 1, 0⟩, ⟨0, 1e-15, 0⟩⟩ = some ⟨⟨0, 0, 1⟩, ⟨0, 0, 0⟩⟩ ∧
    ¬ onPlane ⟨⟨0, 1, 0⟩, ⟨0, 1e-15, 0⟩⟩ ⟨0, 0, 0⟩ := by
  have hcross : Geom.planesCross ⟨⟨0, 0, 0⟩, ⟨1000000, 0, 0⟩⟩ ⟨⟨0, 1, 0⟩, ⟨0, 1e-15, 0⟩⟩ =
      (⟨0, 0, 1e-9⟩ : P3) := by
    rw [Geom.planesCross]; norm_num
  have hd1 : Geom.planesD1 (⟨⟨0, 0, 0⟩, ⟨1000000, 0, 0⟩⟩ : Plane) = 0 := by
    rw [Geom.planesD1]; norm_num
  have hd2 : Geom.planesD1 (⟨⟨0, 1, 0⟩, ⟨0, 1e-15, 0⟩⟩ : Plane) = 1e-15 := by
    rw [Geom.planesD1]; norm_num
  have hm : Real.sqrt ((0:ℝ) ^ 2 + 0 ^ 2 + (1e-9) ^ 2) = 1e-9 := by
    rw [show (0:ℝ) ^ 2 + 0 ^ 2 + (1e-9) ^ 2 = (1e-9) ^ 2 by ring,
      Real.sqrt_sq (by norm_num)]
  have hsol := solve_diag2 1000000 1e-15 0 1e-15 (by norm_num) (by norm_num)
  norm_num at hsol
  have hpz : Geom.planePointZ ⟨⟨0, 0, 0⟩, ⟨1000000, 0, 0⟩⟩ ⟨⟨0, 1, 0⟩, ⟨0, 1e-15, 0⟩⟩ =
      (⟨0, 0, 0⟩ : P3) := by
    rw [Geom.planePointZ, hd1, hd2]
    norm_num
    exact ⟨hsol.1, hsol.2⟩
  constructor
  · simp only [Geom.LineFromIntersectionOfPlanes, hcross]
    rw [hm]
    rw [if_neg (by norm_num : ¬ ((1e-9:ℝ) < 1e-10))]
    rw [if_pos (by
      rw [show |(1e-9:ℝ)| = 1e-9 from abs_of_pos (by norm_num)]
      norm_num : (1e-10:ℝ) < |(1e-9:ℝ)|)]
    rw [hpz]
    simp only [Option.some.injEq, LineRes.mk.injEq, P3.mk.injEq]
    norm_num
  · rw [onPlane, hd2]
    norm_num

/-- C6 amended: the 2 × 2 subsystem solved for the point is selected by
testing the cross-product components against the 1e-10 threshold in the
fixed order z, y, x - the first component over threshold wins, which is not
necessarily the largest-magnitude component. -/
theorem c6_branch_fixed_order_amended :
    ∀ p1 p2 : Plane,
      ¬ (Real.sqrt ((Geom.planesCross p1 p2).x ^ 2 + (Geom.planesCross p1 p2).y ^ 2 +
          (Geom.planesCross p1 p2).z ^ 2) < 1e-10) →
      (Geom.LineFromIntersectionOfPlanes p1 p2).map LineRes.point =
        some (if 1e-10 < |(Geom.planesCross p1 p2).z| then Geom.planePointZ p1 p2
          else if 1e-10 < |(Geom.planesCross p1 p2).y| then Geom.planePointY p1 p2
          else Geom.planePointX p1 p2) := by
  intro p1 p2 h
  simp only [Geom.LineFromIntersectionOfPlanes, if_neg h]
  rfl

/-- C6 counterexample: for the planes with normals `[1,0,0]` and
`[0, 1/1000, 5]` the cross product is `(0, -5, 1/1000)`; its z component
passes the 1e-10 threshold, so the code zeroes z and returns
`(0, 1000, 0)`, whereas the subsystem of the largest-magnitude component
(y) would return `(0, 0, 1/5)`: the claim that the solved subsystem zeroes
the largest-magnitude component is false. -/
theorem c6_branch_order_counterexample :
    (Geom.LineFromIntersectionOfPlanes ⟨⟨0, 0, 0⟩, ⟨1, 0, 0⟩⟩
        ⟨⟨0, 1000, 0⟩, ⟨0, 1 / 1000, 5⟩⟩).map LineRes.point = some ⟨0, 1000, 0⟩ ∧
    pointViaLargestCrossComponent ⟨⟨0, 0, 0⟩, ⟨1, 0, 0⟩⟩
        ⟨⟨0, 1000, 0⟩, ⟨0, 1 / 1000, 5⟩⟩ = ⟨0, 0, 1 / 5⟩ ∧
    (⟨0, 1000, 0⟩ : P3) ≠ ⟨0, 0, 1 / 5⟩ := by
  have hcross : Geom.planesCross ⟨⟨0, 0, 0⟩, ⟨1, 0, 0⟩⟩ ⟨⟨0, 1000, 0⟩, ⟨0, 1 / 1000, 5⟩⟩ =
      (⟨0, -5, 1 / 1000⟩ : P3) := by
    rw [Geom.planesCross]; norm_num
  have hd1 : Geom.planesD1 (⟨⟨0, 0, 0⟩, ⟨1, 0, 0⟩⟩ : Plane) = 0 := by
    rw [Geom.planesD1]; norm_num
  have hd2 : Geom.planesD1 (⟨⟨0, 1000, 0⟩, ⟨0, 1 / 1000, 5⟩⟩ : Plane) = 1 := by
    rw [Geom.planesD1]; norm_num
  have habsz : |(1:ℝ) / 1000| = 1 / 1000 := abs_of_pos (by norm_num)
  have habsy : |(-5:ℝ)| = 5 := by rw [abs_neg, abs_of_pos]; norm_num
  have habsx : |(0:ℝ)| = 0 := abs_zero
  have hsolz := solve_diag2 1 (1 / 1000) 0 1 (by norm_num) (by norm_num)
  norm_num at hsolz
  have hpz : Geom.planePointZ ⟨⟨0, 0, 0⟩, ⟨1, 0, 0⟩⟩ ⟨⟨0, 1000, 0⟩, ⟨0, 1 / 1000, 5⟩⟩ =
      (⟨0, 1000, 0⟩ : P3) := by
    rw [Geom.planePointZ, hd1, hd2]
    norm_num
    exact ⟨hsolz.1, hsolz.2⟩
  have hsoly := solve_diag2 1 5 0 1 (by norm_num) (by norm_num)
  norm_num at hsoly
  have hpy : Geom.planePointY ⟨⟨0, 0, 0⟩, ⟨1, 0, 0⟩⟩ ⟨⟨0, 1000, 0⟩, ⟨0, 1 / 1000, 5⟩⟩ =
      (⟨0, 0, 1 / 5⟩ : P3) := by
    rw [Geom.planePointY, hd1, hd2]
    norm_num
    exact ⟨hsoly.1, hsoly.2⟩
  refine ⟨?_, ?_, ?_⟩
  · have hmag : ¬ (Real.sqrt ((0:ℝ) ^ 2 + (-5) ^ 2 + (1 / 1000) ^ 2) < 1e-10) := by
      apply sqrt_not_lt_threshold
      norm_num
    simp only [Geom.LineFromIntersectionOfPlanes, hcross]
    rw [if_neg hmag]
    rw [if_pos (by rw [habsz]; norm_num : (1e-10:ℝ) < |(1:ℝ) / 1000|)]
    rw [hpz]
    rfl
  · rw [pointViaLargestCrossComponent, hcross]
    rw [if_neg, if_pos]
    · exact hpy
    · show |(0:ℝ)| ≤ |(-5:ℝ)|
      rw [habsx, habsy]; norm_num
    · show ¬ (|(-5:ℝ)| ≤ |(1:ℝ) / 1000| ∧ |(0:ℝ)| ≤ |(1:ℝ) / 1000|)
      rw [habsz, habsy, habsx]
      norm_num
  · intro h
    have := congrArg P3.y h
    norm_num at this

/-- Witness for C6 amended: instantiated at the counterexample planes, with
the non-parallel hypothesis discharged. -/
theorem c6_branch_fixed_order_amended_witness :
    (Geom.LineFromIntersectionOfPlanes ⟨⟨0, 0, 0⟩, ⟨1, 0, 0⟩⟩
        ⟨⟨0, 1000, 0⟩, ⟨0, 1 / 1000, 5⟩⟩).map LineRes.point =
      some (if 1e-10 < |(Geom.planesCross ⟨⟨0, 0, 0⟩, ⟨1, 0, 0⟩⟩
              ⟨⟨0, 1000, 0⟩, ⟨0, 1 / 1000, 5⟩⟩).z| then
          Geom.planePointZ ⟨⟨0, 0, 0⟩, ⟨1, 0, 0⟩⟩ ⟨⟨0, 1000, 0⟩, ⟨0, 1 / 1000, 5⟩⟩
        else if 1e-10 < |(Geom.planesCross ⟨⟨0, 0, 0⟩, ⟨1, 0, 0⟩⟩
              ⟨⟨0, 1000, 0⟩, ⟨0, 1 / 1000, 5⟩⟩).y| then
          Geom.planePointY ⟨⟨0, 0, 0⟩, ⟨1, 0, 0⟩⟩ ⟨⟨0, 1000, 0⟩, ⟨0, 1 / 1000, 5⟩⟩
        else Geom.planePointX ⟨⟨0, 0, 0⟩, ⟨1, 0, 0⟩⟩ ⟨⟨0, 1000, 0⟩, ⟨0, 1 / 1000, 5⟩⟩) :=
  c6_branch_fixed_order_amended ⟨⟨0, 0, 0⟩, ⟨1, 0, 0⟩⟩ ⟨⟨0, 1000, 0⟩, ⟨0, 1 / 1000, 5⟩⟩
    (by
      rw [show Geom.planesCross ⟨⟨0, 0, 0⟩, ⟨1, 0, 0⟩⟩ ⟨⟨0, 1000, 0⟩, ⟨0, 1 / 1000, 5⟩⟩ =
        (⟨0, -5, 1 / 1000⟩ : P3) by rw [Geom.planesCross]; norm_num]
      apply sqrt_not_lt_threshold
      norm_num)

/-- C8 amended: `EllipseFromPoints` performs no point-count validation at
all: for every nonempty list of points - in particular for every list of at
least 5, but also for fewer - it returns a coefficient record
`{A, B, C, D, E}` rather than raising any InsufficientPoints error. -/
theorem c8_fit_no_count_check :
    ∀ pts : List P2, pts ≠ [] → ∃ co, Geom.EllipseFromPoints pts = .ok co := by
  intro pts h
  rw [Geom.EllipseFromPoints, if_neg]
  · exact ⟨_, rfl⟩
  · simpa using h

/-- Witness for C8 amended: a concrete 5-point call, hypothesis
discharged. -/
theorem c8_fit_no_count_check_witness :
    ∃ co, Geom.EllipseFromPoints [⟨1, 0⟩, ⟨0, 1⟩, ⟨-1, 0⟩, ⟨0, -1⟩, ⟨2, 2⟩] = .ok co :=
  c8_fit_no_count_check [⟨1, 0⟩, ⟨0, 1⟩, ⟨-1, 0⟩, ⟨0, -1⟩, ⟨2, 2⟩] (by simp)

theorem c8_design_orth :
    ∀ pq ∈ pairList (Mat.ofRows
        (([⟨1, 0⟩, ⟨-1, 0⟩, ⟨0, 1⟩, ⟨0, -1⟩] : List P2).map Geom.conicRow)).n,
      colDot (Mat.ofRows
        (([⟨1, 0⟩, ⟨-1, 0⟩, ⟨0, 1⟩, ⟨0, -1⟩] : List P2).map Geom.conicRow)) pq.1 pq.2 = 0 := by
  intro pq hpq
  have hlist : pairList (Mat.ofRows
      (([⟨1, 0⟩, ⟨-1, 0⟩, ⟨0, 1⟩, ⟨0, -1⟩] : List P2).map Geom.conicRow)).n =
      [(0, 1), (0, 2), (0, 3), (0, 4), (1, 2), (1, 3), (1, 4), (2, 3), (2, 4), (3, 4)] := rfl
  rw [hlist] at hpq
  simp only [List.mem_cons, List.not_mem_nil, or_false] at hpq
  rcases hpq with rfl | rfl | rfl | rfl | rfl | rfl | rfl | rfl | rfl | rfl <;>
    norm_num [colDot, Geom.conicRow, Finset.sum_range_succ]

/-- C8 counterexample: with only 4 points (the unit-circle axis points),
`EllipseFromPoints` does not raise InsufficientPoints or anything else: it
returns the coefficient record `{A:1, B:0, C:1, D:0, E:0}` of the unit
circle through the 4 points. -/
theorem c8_four_points_counterexample :
    Geom.EllipseFromPoints [⟨1, 0⟩, ⟨-1, 0⟩, ⟨0, 1⟩, ⟨0, -1⟩] = .ok ⟨1, 0, 1, 0, 0⟩ := by
  rw [Geom.EllipseFromPoints, if_neg (by norm_num)]
  have hconv := svdLoop_100_orth
    (Mat.ofRows (([⟨1, 0⟩, ⟨-1, 0⟩, ⟨0, 1⟩, ⟨0, -1⟩] : List P2).map Geom.conicRow))
    (Mat.Identity (Mat.ofRows
      (([⟨1, 0⟩, ⟨-1, 0⟩, ⟨0, 1⟩, ⟨0, -1⟩] : List P2).map Geom.conicRow)).n)
    c8_design_orth
  have hs2 : Real.sqrt 2 * Real.sqrt 2 = 2 := Real.mul_self_sqrt (by norm_num)
  have hs2pos : (0:ℝ) < Real.sqrt 2 := Real.sqrt_pos.mpr (by norm_num)
  have hthr : (1e-10:ℝ) < |Real.sqrt 2| := by
    rw [abs_of_pos hs2pos]
    nlinarith [hs2]
  have hthr0 : ¬ ((1e-10:ℝ) < |Real.sqrt 0|) := by
    rw [Real.sqrt_zero, abs_zero]
    norm_num
  simp only [Mat.SVDSolve, Mat.SVD, svdJS, hconv]
  simp only [Except.ok.injEq, Conic.mk.injEq]
  have hinv : (Real.sqrt 2)⁻¹ * (Real.sqrt 2)⁻¹ = 1 / 2 := by
    rw [← mul_inv, hs2]; norm_num
  have hinv2 : (Real.sqrt 2)⁻¹ * (-1 / Real.sqrt 2) = -(1 / 2) := by
    rw [neg_div, one_div, mul_neg, hinv]
  have hthrB : (1:ℝ) / 10000000000 < |Real.sqrt 2| := by
    rw [abs_of_pos hs2pos]
    nlinarith [hs2]
  norm_num [Geom.conicRow, Finset.sum_range_succ, colDot, hthr, hthrB, hinv, hinv2]

/-! ## C3: the degenerate (line) branch of ArcWithPerspective -/

/-- Bind of a successful `Except` computation reduces to the continuation. -/
theorem jsBind_ok {α β : Type} (a : α) (f : α → Except JSErr β) :
    (Except.ok a : Except JSErr α) >>= f = f a := rfl

/-- Pure of the `Except` monad is `Except.ok`. -/
theorem jsPure {α : Type} (a : α) : (pure a : Except JSErr α) = Except.ok a := rfl

theorem foldl_min_zero : ∀ t : List ℝ, (∀ x ∈ t, x = 0) → t.foldl min 0 = 0 := by
  intro t
  induction t with
  | nil => intro _; rfl
  | cons a t ih =>
    intro h
    have ha : a = 0 := h a (List.mem_cons_self a t)
    have hstep : (a :: t).foldl min 0 = t.foldl min (min 0 a) := rfl
    rw [hstep, ha, min_self]
    exact ih fun x hx => h x (List.mem_cons_of_mem _ hx)

theorem foldl_max_zero : ∀ t : List ℝ, (∀ x ∈ t, x = 0) → t.foldl max 0 = 0 := by
  intro t
  induction t with
  | nil => intro _; rfl
  | cons a t ih =>
    intro h
    have ha : a = 0 := h a (List.mem_cons_self a t)
    have hstep : (a :: t).foldl max 0 = t.foldl max (max 0 a) := rfl
    rw [hstep, ha, max_self]
    exact ih fun x hx => h x (List.mem_cons_of_mem _ hx)

theorem jsMinList_all_zero (l : List ℝ) (h : ∀ x ∈ l, x = 0) : jsMinList l = 0 := by
  cases l with
  | nil => rfl
  | cons a t =>
    show t.foldl min a = 0
    rw [h a (List.mem_cons_self a t)]
    exact foldl_min_zero t fun x hx => h x (List.mem_cons_of_mem _ hx)

theorem jsMaxList_all_zero (l : List ℝ) (h : ∀ x ∈ l, x = 0) : jsMaxList l = 0 := by
  cases l with
  | nil => rfl
  | cons a t =>
    show t.foldl max a = 0
    rw [h a (List.mem_cons_self a t)]
    exact foldl_max_zero t fun x hx => h x (List.mem_cons_of_mem _ hx)

/-- On a point list lying entirely on the line `x = 0`, `SegmentFromPoints`
returns a degenerate vertical diagonal with `errorSize` exactly 0. -/
theorem segment_all_x_zero (pts : List P2) (h2 : ¬ pts.length < 2)
    (hx : ∀ p ∈ pts, p.x = 0) :
    ∃ seg : Line2, Geom.SegmentFromPoints pts = .ok ⟨seg, 0⟩ := by
  have hxmap : ∀ v ∈ pts.map P2.x, v = 0 := by
    intro v hv
    obtain ⟨p, hp, rfl⟩ := List.mem_map.mp hv
    exact hx p hp
  have hxmin : jsMinList (pts.map P2.x) = 0 := jsMinList_all_zero _ hxmap
  have hxmax : jsMaxList (pts.map P2.x) = 0 := jsMaxList_all_zero _ hxmap
  have hd : ∀ ymin ymax : ℝ, ∀ d ∈ pts.map fun p =>
      Geom.perpendicularDistance p ⟨0, ymin, 0, ymax⟩, d = 0 := by
    intro ymin ymax d hdm
    obtain ⟨p, hp, rfl⟩ := List.mem_map.mp hdm
    simp [Geom.perpendicularDistance, hx p hp]
  refine ⟨⟨0, jsMinList (pts.map P2.y), 0, jsMaxList (pts.map P2.y)⟩, ?_⟩
  rw [Geom.SegmentFromPoints, if_neg h2]
  simp only [hxmin, hxmax]
  rw [jsMaxList_all_zero _ (hd (jsMinList (pts.map P2.y)) (jsMaxList (pts.map P2.y))),
    jsMaxList_all_zero _ (hd (jsMaxList (pts.map P2.y)) (jsMinList (pts.map P2.y))),
    if_pos le_rfl]

/-- When every first-row entry of the affine point matrix equals the eye x
coordinate, every projected point keeps that x coordinate (the perspective
scaling multiplies a zero offset). -/
theorem pxyp_x_eq_eyex (eye : Eye) (M : Mat) (hm : M.m = 4)
    (h0 : ∀ j, M.e 0 j = eye.x) :
    ∃ L, Geom.PerspectiveXYProjection eye M = .ok L ∧ L.length = M.n ∧
      ∀ p ∈ L, p.x = eye.x := by
  refine ⟨(List.range M.n).map fun j =>
      ⟨eye.x + eye.z / (eye.z - M.e 2 j) * (M.e 0 j - eye.x),
       eye.y + eye.z / (eye.z - M.e 2 j) * (M.e 1 j - eye.y)⟩, ?_, by simp, ?_⟩
  · rw [Geom.PerspectiveXYProjection, if_neg (fun h => h hm)]
  · intro p hp
    simp only [List.mem_map, List.mem_range] at hp
    obtain ⟨j, hj, rfl⟩ := hp
    rw [h0 j]
    simp

@[simp] theorem Ellipse.ofVectorColumns_m (vecs : List (List ℝ)) :
    (Ellipse.ofVectorColumns vecs).m = (vecs.headD []).length := rfl

@[simp] theorem Ellipse.ofVectorColumns_n (vecs : List (List ℝ)) :
    (Ellipse.ofVectorColumns vecs).n = vecs.length := rfl

@[simp] theorem Ellipse.ofVectorColumns_e (vecs : List (List ℝ)) (i j : ℕ) :
    (Ellipse.ofVectorColumns vecs).e i j = (vecs.getD j []).getD i 0 := rfl

/-- The third row of the sample matrix is identically zero (the samples are
affine points `(x, y, 0, 1)`), so the flat transform with first row
`[0, 0, 1, 0]` sends every first-row entry of the product to zero. -/
theorem flatT_row0_zero (cx cy rx ry : ℝ) :
    ∀ j, ((Mat.ofRows [[0, 0, 1, 0], [0, 1, 0, 0], [-1, 0, 0, 0], [0, 0, 0, 1]]).Mult
      (Ellipse.ofVectorColumns (Geom.sampleRows cx cy rx ry))).e 0 j = 0 := by
  intro j
  have hp2 : ((Geom.sampleRows cx cy rx ry).getD j []).getD 2 0 = 0 := by
    rcases j with _ | _ | _ | _ | _ | _ | _ | _ | j
    · rfl
    · rfl
    · rfl
    · rfl
    · rfl
    · rfl
    · rfl
    · rfl
    · have hdef : (Geom.sampleRows cx cy rx ry).getD (j + 8) [] = [] :=
        List.getD_eq_default _ _ (by simp [Geom.sampleRows])
      rw [hdef]
      rfl
  rw [Mat.Mult_e]
  rw [show (Mat.ofRows [[(0:ℝ), 0, 1, 0], [0, 1, 0, 0], [-1, 0, 0, 0],
    [0, 0, 0, 1]]).n = 4 from rfl]
  rw [Finset.sum_range_succ, Finset.sum_range_succ, Finset.sum_range_succ,
    Finset.sum_range_succ, Finset.sum_range_zero,
    show (Mat.ofRows [[(0:ℝ), 0, 1, 0], [0, 1, 0, 0], [-1, 0, 0, 0],
      [0, 0, 0, 1]]).e 0 0 = 0 from rfl,
    show (Mat.ofRows [[(0:ℝ), 0, 1, 0], [0, 1, 0, 0], [-1, 0, 0, 0],
      [0, 0, 0, 1]]).e 0 1 = 0 from rfl,
    show (Mat.ofRows [[(0:ℝ), 0, 1, 0], [0, 1, 0, 0], [-1, 0, 0, 0],
      [0, 0, 0, 1]]).e 0 2 = 1 from rfl,
    show (Mat.ofRows [[(0:ℝ), 0, 1, 0], [0, 1, 0, 0], [-1, 0, 0, 0],
      [0, 0, 0, 1]]).e 0 3 = 0 from rfl,
    show (Ellipse.ofVectorColumns (Geom.sampleRows cx cy rx ry)).e 2 j =
      ((Geom.sampleRows cx cy rx ry).getD j []).getD 2 0 from rfl,
    hp2]
  ring

/-- Under the eye `(0, 0, 4)` and the flat transform, the eight projected
sample points of any source ellipse all land on the line `x = 0`, so the
segment fit is exact: `EllipseWithPerspective` succeeds with
`line.errorSize = 0`. -/
theorem ewp_flat_line_zero (cx cy rx ry : ℝ) :
    ∃ out : Ellipse.EWP3Out,
      Ellipse.EllipseWithPerspective cx cy rx ry ⟨0, 0, 4⟩
        (Mat.ofRows [[0, 0, 1, 0], [0, 1, 0, 0], [-1, 0, 0, 0], [0, 0, 0, 1]]) = .ok out ∧
      out.line.errorSize = 0 := by
  obtain ⟨L, hL, hlen, hx0⟩ := pxyp_x_eq_eyex ⟨0, 0, 4⟩
    ((Mat.ofRows [[0, 0, 1, 0], [0, 1, 0, 0], [-1, 0, 0, 0], [0, 0, 0, 1]]).Mult
      (Ellipse.ofVectorColumns (Geom.sampleRows cx cy rx ry))) rfl
    (flatT_row0_zero cx cy rx ry)
  have hlen2 : ¬ L.length < 2 := by
    rw [hlen]
    simp [Geom.sampleRows]
  obtain ⟨seg, hseg⟩ := segment_all_x_zero L hlen2 hx0
  have hfit : ∃ co, Geom.EllipseFromPoints L = .ok co := by
    rw [Geom.EllipseFromPoints, if_neg]
    · exact ⟨_, rfl⟩
    · rw [hlen]
      simp [Geom.sampleRows]
  obtain ⟨co, hco⟩ := hfit
  refine ⟨⟨Ellipse.EllipseStandardForm co, ⟨seg, 0⟩, L⟩, ?_, rfl⟩
  rw [Ellipse.EllipseWithPerspective]
  rw [if_neg (fun h => h.elim (fun h1 => h1 rfl) (fun h2 => h2 rfl))]
  simp only [hL, hseg, hco, jsBind_ok, jsPure]

/-- Any 4-row affine point matrix projects successfully. -/
theorem pxyp_ok_of_m4 (eye : Eye) (M : Mat) (hm : M.m = 4) :
    ∃ L, Geom.PerspectiveXYProjection eye M = .ok L := by
  rw [Geom.PerspectiveXYProjection, if_neg (fun h => h hm)]
  exact ⟨_, rfl⟩

/-- Under the flat transform (a 4 × 4 matrix), `PointWithPerspective`
always succeeds. -/
theorem pwp_flat_ok (x y : ℝ) :
    ∃ p, Ellipse.PointWithPerspective x y ⟨0, 0, 4⟩
      (Mat.ofRows [[0, 0, 1, 0], [0, 1, 0, 0], [-1, 0, 0, 0], [0, 0, 0, 1]]) = .ok p := by
  obtain ⟨L, hL⟩ := pxyp_ok_of_m4 ⟨0, 0, 4⟩
    ((Mat.ofRows [[0, 0, 1, 0], [0, 1, 0, 0], [-1, 0, 0, 0], [0, 0, 0, 1]]).Mult
      (Mat.ofRows [[x, y, 0, 1]]).Transpose) rfl
  refine ⟨L.getD 0 ⟨0, 0⟩, ?_⟩
  rw [Ellipse.PointWithPerspective]
  rw [if_neg (fun h => h.elim (fun h1 => h1 rfl) (fun h2 => h2 rfl))]
  simp only [hL, jsBind_ok, jsPure]

/-- For every current point and arc argument list, the flat transform drives
`ArcWithPerspective` into the degenerate branch, which raises the
ReferenceError of the undefined `p0`/`p1` identifiers. -/
theorem arcWP_flat_refError (cur : P2) (av : List ℝ) :
    Ellipse.ArcWithPerspective cur av
      ⟨⟨0, 0, 4⟩, Mat.ofRows [[0, 0, 1, 0], [0, 1, 0, 0], [-1, 0, 0, 0], [0, 0, 0, 1]]⟩ =
      .error .referenceError := by
  obtain ⟨out, hout, herr⟩ := ewp_flat_line_zero
    (Ellipse.arcEndpointToCenterParameters cur.x cur.y (av.getD 0 0) (av.getD 1 0)
      (av.getD 2 0) (av.getD 3 0) (av.getD 4 0) (av.getD 5 0) (av.getD 6 0)).cx
    (Ellipse.arcEndpointToCenterParameters cur.x cur.y (av.getD 0 0) (av.getD 1 0)
      (av.getD 2 0) (av.getD 3 0) (av.getD 4 0) (av.getD 5 0) (av.getD 6 0)).cy
    (Ellipse.arcEndpointToCenterParameters cur.x cur.y (av.getD 0 0) (av.getD 1 0)
      (av.getD 2 0) (av.getD 3 0) (av.getD 4 0) (av.getD 5 0) (av.getD 6 0)).rx
    (Ellipse.arcEndpointToCenterParameters cur.x cur.y (av.getD 0 0) (av.getD 1 0)
      (av.getD 2 0) (av.getD 3 0) (av.getD 4 0) (av.getD 5 0) (av.getD 6 0)).ry
  obtain ⟨p0, hp0⟩ := pwp_flat_ok cur.x cur.y
  obtain ⟨p1, hp1⟩ := pwp_flat_ok (av.getD 5 0) (av.getD 6 0)
  simp only [Ellipse.ArcWithPerspective, hout, hp0, hp1, jsBind_ok]
  rw [if_pos (show out.line.errorSize < 0.99 by rw [herr]; norm_num)]
  rfl

/-- C3: in the degenerate (line) branch of `Ellipse.ArcWithPerspective` the
source executes `ret.line = {p0, p1}`, where `p0` and `p1` are identifiers
defined nowhere in the module, so instead of returning a line record the call
raises a ReferenceError.  Concrete failing input: the arc from (2, 0) to
(-2, 0) with radii 2 and 1, viewed from eye (0, 0, 4) through the transform
that rotates the arc plane edge-on (all projected sample points land on
x = 0, so the segment fit is exact and the degenerate branch is taken). -/
theorem c3_arc_line_branch_reference_error :
    Ellipse.ArcWithPerspective ⟨2, 0⟩ [2, 1, 0, 0, 1, -2, 0]
      ⟨⟨0, 0, 4⟩, Mat.ofRows [[0, 0, 1, 0], [0, 1, 0, 0], [-1, 0, 0, 0], [0, 0, 0, 1]]⟩ =
      .error .referenceError :=
  arcWP_flat_refError ⟨2, 0⟩ [2, 1, 0, 0, 1, -2, 0]

/-! ## C9: mutation of the arc argument array by ArcWithPerspective -/

theorem sampleAngle0 : Geom.sampleAngle 0 = 0 := by
  rw [Geom.sampleAngle]; push_cast; ring

theorem sampleAngle1 : Geom.sampleAngle 1 = π / 4 := by
  rw [Geom.sampleAngle]; push_cast; ring

theorem sampleAngle2 : Geom.sampleAngle 2 = π / 2 := by
  rw [Geom.sampleAngle]; push_cast; ring

theorem sampleAngle3 : Geom.sampleAngle 3 = π - π / 4 := by
  rw [Geom.sampleAngle]; push_cast; ring

theorem sampleAngle4 : Geom.sampleAngle 4 = π := by
  rw [Geom.sampleAngle]; push_cast; ring

theorem sampleAngle5 : Geom.sampleAngle 5 = π / 4 + π := by
  rw [Geom.sampleAngle]; push_cast; ring

theorem sampleAngle6 : Geom.sampleAngle 6 = π / 2 + π := by
  rw [Geom.sampleAngle]; push_cast; ring

theorem sampleAngle7 : Geom.sampleAngle 7 = (π - π / 4) + π := by
  rw [Geom.sampleAngle]; push_cast; ring

theorem cos_sa0 : Real.cos (Geom.sampleAngle 0) = 1 := by
  rw [sampleAngle0, Real.cos_zero]

theorem sin_sa0 : Real.sin (Geom.sampleAngle 0) = 0 := by
  rw [sampleAngle0, Real.sin_zero]

theorem cos_sa1 : Real.cos (Geom.sampleAngle 1) = Real.sqrt 2 / 2 := by
  rw [sampleAngle1, Real.cos_pi_div_four]

theorem sin_sa1 : Real.sin (Geom.sampleAngle 1) = Real.sqrt 2 / 2 := by
  rw [sampleAngle1, Real.sin_pi_div_four]

theorem cos_sa2 : Real.cos (Geom.sampleAngle 2) = 0 := by
  rw [sampleAngle2, Real.cos_pi_div_two]

theorem sin_sa2 : Real.sin (Geom.sampleAngle 2) = 1 := by
  rw [sampleAngle2, Real.sin_pi_div_two]

theorem cos_sa3 : Real.cos (Geom.sampleAngle 3) = -(Real.sqrt 2 / 2) := by
  rw [sampleAngle3, Real.cos_pi_sub, Real.cos_pi_div_four]

theorem sin_sa3 : Real.sin (Geom.sampleAngle 3) = Real.sqrt 2 / 2 := by
  rw [sampleAngle3, Real.sin_pi_sub, Real.sin_pi_div_four]

theorem cos_sa4 : Real.cos (Geom.sampleAngle 4) = -1 := by
  rw [sampleAngle4, Real.cos_pi]

theorem sin_sa4 : Real.sin (Geom.sampleAngle 4) = 0 := by
  rw [sampleAngle4, Real.sin_pi]

theorem cos_sa5 : Real.cos (Geom.sampleAngle 5) = -(Real.sqrt 2 / 2) := by
  rw [sampleAngle5, Real.cos_add_pi, Real.cos_pi_div_four]

theorem sin_sa5 : Real.sin (Geom.sampleAngle 5) = -(Real.sqrt 2 / 2) := by
  rw [sampleAngle5, Real.sin_add_pi, Real.sin_pi_div_four]

theorem cos_sa6 : Real.cos (Geom.sampleAngle 6) = 0 := by
  rw [sampleAngle6, Real.cos_add_pi, Real.cos_pi_div_two, neg_zero]

theorem sin_sa6 : Real.sin (Geom.sampleAngle 6) = -1 := by
  rw [sampleAngle6, Real.sin_add_pi, Real.sin_pi_div_two]

theorem cos_sa7 : Real.cos (Geom.sampleAngle 7) = Real.sqrt 2 / 2 := by
  rw [sampleAngle7, Real.cos_add_pi, Real.cos_pi_sub, Real.cos_pi_div_four, neg_neg]

theorem sin_sa7 : Real.sin (Geom.sampleAngle 7) = -(Real.sqrt 2 / 2) := by
  rw [sampleAngle7, Real.sin_add_pi, Real.sin_pi_sub, Real.sin_pi_div_four]

theorem foldl_min_le_init : ∀ (t : List ℝ) (a : ℝ), t.foldl min a ≤ a := by
  intro t
  induction t with
  | nil => intro a; exact le_rfl
  | cons b t ih =>
    intro a
    exact le_trans (ih (min a b)) (min_le_left a b)

theorem foldl_min_le_mem : ∀ (t : List ℝ) (a x : ℝ), x ∈ t → t.foldl min a ≤ x := by
  intro t
  induction t with
  | nil => intro a x hx; exact absurd hx (List.not_mem_nil x)
  | cons b t ih =>
    intro a x hx
    rcases List.mem_cons.mp hx with rfl | hx
    · exact le_trans (foldl_min_le_init t (min a x)) (min_le_right a x)
    · exact ih (min a b) x hx

theorem foldl_min_mem_or : ∀ (t : List ℝ) (a : ℝ), t.foldl min a = a ∨ t.foldl min a ∈ t := by
  intro t
  induction t with
  | nil => intro a; exact Or.inl rfl
  | cons b t ih =>
    intro a
    rcases ih (min a b) with h | h
    · rcases min_choice a b with h2 | h2
      · exact Or.inl (by rw [show (b :: t).foldl min a = t.foldl min (min a b) from rfl, h, h2])
      · refine Or.inr ?_
        rw [show (b :: t).foldl min a = t.foldl min (min a b) from rfl, h, h2]
        exact List.mem_cons_self b t
    · exact Or.inr (List.mem_cons_of_mem b h)

/-- `Math.min(...list)` evaluator: the result is the claimed minimum. -/
theorem jsMinList_eq (l : List ℝ) (m : ℝ) (hm : m ∈ l) (hle : ∀ x ∈ l, m ≤ x) :
    jsMinList l = m := by
  cases l with
  | nil => exact absurd hm (List.not_mem_nil m)
  | cons h t =>
    show t.foldl min h = m
    refine le_antisymm ?_ ?_
    · rcases List.mem_cons.mp hm with rfl | hmt
      · exact foldl_min_le_init t m
      · exact foldl_min_le_mem t h m hmt
    · rcases foldl_min_mem_or t h with he | he
      · rw [he]; exact hle h (List.mem_cons_self h t)
      · exact hle _ (List.mem_cons_of_mem h he)

theorem foldl_max_ge_init : ∀ (t : List ℝ) (a : ℝ), a ≤ t.foldl max a := by
  intro t
  induction t with
  | nil => intro a; exact le_rfl
  | cons b t ih =>
    intro a
    exact le_trans (le_max_left a b) (ih (max a b))

theorem foldl_max_ge_mem : ∀ (t : List ℝ) (a x : ℝ), x ∈ t → x ≤ t.foldl max a := by
  intro t
  induction t with
  | nil => intro a x hx; exact absurd hx (List.not_mem_nil x)
  | cons b t ih =>
    intro a x hx
    rcases List.mem_cons.mp hx with rfl | hx
    · exact le_trans (le_max_right a x) (foldl_max_ge_init t (max a x))
    · exact ih (max a b) x hx

theorem foldl_max_mem_or : ∀ (t : List ℝ) (a : ℝ), t.foldl max a = a ∨ t.foldl max a ∈ t := by
  intro t
  induction t with
  | nil => intro a; exact Or.inl rfl
  | cons b t ih =>
    intro a
    rcases ih (max a b) with h | h
    · rcases max_choice a b with h2 | h2
      · exact Or.inl (by rw [show (b :: t).foldl max a = t.foldl max (max a b) from rfl, h, h2])
      · refine Or.inr ?_
        rw [show (b :: t).foldl max a = t.foldl max (max a b) from rfl, h, h2]
        exact List.mem_cons_self b t
    · exact Or.inr (List.mem_cons_of_mem b h)

/-- `Math.max(...list)` evaluator: the result is the claimed maximum. -/
theorem jsMaxList_eq (l : List ℝ) (m : ℝ) (hm : m ∈ l) (hge : ∀ x ∈ l, x ≤ m) :
    jsMaxList l = m := by
  cases l with
  | nil => exact absurd hm (List.not_mem_nil m)
  | cons h t =>
    show t.foldl max h = m
    refine le_antisymm ?_ ?_
    · rcases foldl_max_mem_or t h with he | he
      · rw [he]; exact hge h (List.mem_cons_self h t)
      · exact hge _ (List.mem_cons_of_mem h he)
    · rcases List.mem_cons.mp hm with rfl | hmt
      · exact foldl_max_ge_init t m
      · exact foldl_max_ge_mem t h m hmt

/-- Inversion of a successful `Except` bind. -/
theorem except_ok_of_bind_ok {α β : Type} (e : Except JSErr α) (f : α → Except JSErr β)
    (b : β) (h : (e >>= f) = .ok b) : ∃ a, e = .ok a ∧ f a = .ok b := by
  cases e with
  | error err =>
    have hred : (Except.error err : Except JSErr α) >>= f = Except.error err := rfl
    rw [hred] at h
    exact Except.noConfusion h
  | ok a => exact ⟨a, rfl, by rwa [jsBind_ok] at h⟩

/-- Any 4 × 4 transform makes `PointWithPerspective` succeed. -/
theorem pwp_ok_of_4x4 (x y : ℝ) (eye : Eye) (T : Mat) (hm : T.m = 4) (hn : T.n = 4) :
    ∃ p, Ellipse.PointWithPerspective x y eye T = .ok p := by
  obtain ⟨L, hL⟩ := pxyp_ok_of_m4 eye (T.Mult (Mat.ofRows [[x, y, 0, 1]]).Transpose)
    (by simp [hm])
  refine ⟨L.getD 0 ⟨0, 0⟩, ?_⟩
  rw [Ellipse.PointWithPerspective, if_neg (fun h => h.elim (fun h1 => h1 hm) (fun h2 => h2 hn))]
  simp only [hL, jsBind_ok, jsPure]

/-- C9 amended: the embedded code is pure except for `Ellipse.ArcWithPerspective`,
which writes the projected arc parameters into its argument array `av`
(indices 0 through 6) and returns that same mutated array as the `arc` field
of its result: whenever the call succeeds, the returned record aliases the
final state of the argument array rather than a freshly constructed value. -/
theorem c9_arc_returns_mutated_argument :
    ∀ (cur : P2) (av : List ℝ) (persp : Persp) (ret : Ellipse.ArcRet) (avF : List ℝ),
      Ellipse.ArcWithPerspective cur av persp = .ok (ret, avF) → ret.arc = avF := by
  intro cur av persp ret avF h
  simp only [Ellipse.ArcWithPerspective] at h
  obtain ⟨ewp, hewp, h⟩ := except_ok_of_bind_ok _ _ _ h
  obtain ⟨p0, hp0, h⟩ := except_ok_of_bind_ok _ _ _ h
  obtain ⟨p1, hp1, h⟩ := except_ok_of_bind_ok _ _ _ h
  by_cases hb : ewp.line.errorSize < 0.99
  · rw [if_pos hb] at h
    exact Except.noConfusion
      (show (Except.error JSErr.referenceError : Except JSErr (Ellipse.ArcRet × List ℝ)) =
        Except.ok (ret, avF) from h)
  · rw [if_neg hb] at h
    simp only [jsPure, Except.ok.injEq, Prod.mk.injEq] at h
    obtain ⟨h1, h2⟩ := h
    rw [← h1, ← h2]

/-- The eight projected sample points of the source ellipse `(0, 0, 2, 1)`
under eye `(0, 0, 10)` and the unit z-translation transform. -/
theorem c9_proj :
    Geom.PerspectiveXYProjection ⟨0, 0, 10⟩
      ((Mat.ofRows [[1, 0, 0, 0], [0, 1, 0, 0], [0, 0, 1, 1], [0, 0, 0, 1]]).Mult
        (Ellipse.ofVectorColumns (Geom.sampleRows 0 0 2 1))) =
    .ok [⟨20/9, 0⟩, ⟨10 * Real.sqrt 2 / 9, 5 * Real.sqrt 2 / 9⟩, ⟨0, 10/9⟩,
         ⟨-(10 * Real.sqrt 2 / 9), 5 * Real.sqrt 2 / 9⟩, ⟨-(20/9), 0⟩,
         ⟨-(10 * Real.sqrt 2 / 9), -(5 * Real.sqrt 2 / 9)⟩, ⟨0, -(10/9)⟩,
         ⟨10 * Real.sqrt 2 / 9, -(5 * Real.sqrt 2 / 9)⟩] := by
  have hsr : Geom.sampleRows 0 0 2 1 =
      [[0 + 2 * Real.cos (Geom.sampleAngle 0), 0 + 1 * Real.sin (Geom.sampleAngle 0), 0, 1],
       [0 + 2 * Real.cos (Geom.sampleAngle 1), 0 + 1 * Real.sin (Geom.sampleAngle 1), 0, 1],
       [0 + 2 * Real.cos (Geom.sampleAngle 2), 0 + 1 * Real.sin (Geom.sampleAngle 2), 0, 1],
       [0 + 2 * Real.cos (Geom.sampleAngle 3), 0 + 1 * Real.sin (Geom.sampleAngle 3), 0, 1],
       [0 + 2 * Real.cos (Geom.sampleAngle 4), 0 + 1 * Real.sin (Geom.sampleAngle 4), 0, 1],
       [0 + 2 * Real.cos (Geom.sampleAngle 5), 0 + 1 * Real.sin (Geom.sampleAngle 5), 0, 1],
       [0 + 2 * Real.cos (Geom.sampleAngle 6), 0 + 1 * Real.sin (Geom.sampleAngle 6), 0, 1],
       [0 + 2 * Real.cos (Geom.sampleAngle 7), 0 + 1 * Real.sin (Geom.sampleAngle 7), 0, 1]] :=
    rfl
  rw [Geom.PerspectiveXYProjection, if_neg (fun h => h rfl)]
  rw [show List.range ((Mat.ofRows [[(1:ℝ), 0, 0, 0], [0, 1, 0, 0], [0, 0, 1, 1],
    [0, 0, 0, 1]]).Mult (Ellipse.ofVectorColumns (Geom.sampleRows 0 0 2 1))).n =
    [0, 1, 2, 3, 4, 5, 6, 7] from rfl]
  simp only [List.map_cons, List.map_nil]
  norm_num [Mat.Mult_e, hsr, Finset.sum_range_succ, P2.mk.injEq,
    cos_sa0, sin_sa0, cos_sa1, sin_sa1, cos_sa2, sin_sa2, cos_sa3, sin_sa3,
    cos_sa4, sin_sa4, cos_sa5, sin_sa5, cos_sa6, sin_sa6, cos_sa7, sin_sa7]
  constructor <;> ring

/-- The segment fit of the eight C9 projected points: the bounding-box
diagonal from `(-20/9, -10/9)` to `(20/9, 10/9)` with worst residual
`(400·√2/81) / √(2000/81)` (which is about 1.405). -/
theorem c9_segment :
    Geom.SegmentFromPoints
      [⟨20/9, 0⟩, ⟨10 * Real.sqrt 2 / 9, 5 * Real.sqrt 2 / 9⟩, ⟨0, 10/9⟩,
       ⟨-(10 * Real.sqrt 2 / 9), 5 * Real.sqrt 2 / 9⟩, ⟨-(20/9), 0⟩,
       ⟨-(10 * Real.sqrt 2 / 9), -(5 * Real.sqrt 2 / 9)⟩, ⟨0, -(10/9)⟩,
       ⟨10 * Real.sqrt 2 / 9, -(5 * Real.sqrt 2 / 9)⟩] =
    .ok ⟨⟨-(20/9), -(10/9), 20/9, 10/9⟩,
         400 * Real.sqrt 2 / 81 / Real.sqrt (2000/81)⟩ := by
  have hs2 : Real.sqrt 2 * Real.sqrt 2 = 2 := Real.mul_self_sqrt (by norm_num)
  have hs2nn : (0:ℝ) ≤ Real.sqrt 2 := Real.sqrt_nonneg 2
  have hDpos : (0:ℝ) < Real.sqrt (2000/81) := Real.sqrt_pos.mpr (by norm_num)
  have hxmin : jsMinList [20/9, 10 * Real.sqrt 2 / 9, 0, -(10 * Real.sqrt 2 / 9), -(20/9),
      -(10 * Real.sqrt 2 / 9), 0, 10 * Real.sqrt 2 / 9] = -(20/9) := by
    refine jsMinList_eq _ _ (by simp) ?_
    intro x hx
    simp only [List.mem_cons, List.not_mem_nil, or_false] at hx
    rcases hx with rfl | rfl | rfl | rfl | rfl | rfl | rfl | rfl <;>
      nlinarith [hs2, hs2nn, sq_nonneg (Real.sqrt 2 - 2)]
  have hxmax : jsMaxList [20/9, 10 * Real.sqrt 2 / 9, 0, -(10 * Real.sqrt 2 / 9), -(20/9),
      -(10 * Real.sqrt 2 / 9), 0, 10 * Real.sqrt 2 / 9] = 20/9 := by
    refine jsMaxList_eq _ _ (by simp) ?_
    intro x hx
    simp only [List.mem_cons, List.not_mem_nil, or_false] at hx
    rcases hx with rfl | rfl | rfl | rfl | rfl | rfl | rfl | rfl <;>
      nlinarith [hs2, hs2nn, sq_nonneg (Real.sqrt 2 - 2)]
  have hymin : jsMinList [0, 5 * Real.sqrt 2 / 9, 10/9, 5 * Real.sqrt 2 / 9, 0,
      -(5 * Real.sqrt 2 / 9), -(10/9), -(5 * Real.sqrt 2 / 9)] = -(10/9) := by
    refine jsMinList_eq _ _ (by simp) ?_
    intro x hx
    simp only [List.mem_cons, List.not_mem_nil, or_false] at hx
    rcases hx with rfl | rfl | rfl | rfl | rfl | rfl | rfl | rfl <;>
      nlinarith [hs2, hs2nn, sq_nonneg (Real.sqrt 2 - 2)]
  have hymax : jsMaxList [0, 5 * Real.sqrt 2 / 9, 10/9, 5 * Real.sqrt 2 / 9, 0,
      -(5 * Real.sqrt 2 / 9), -(10/9), -(5 * Real.sqrt 2 / 9)] = 10/9 := by
    refine jsMaxList_eq _ _ (by simp) ?_
    intro x hx
    simp only [List.mem_cons, List.not_mem_nil, or_false] at hx
    rcases hx with rfl | rfl | rfl | rfl | rfl | rfl | rfl | rfl <;>
      nlinarith [hs2, hs2nn, sq_nonneg (Real.sqrt 2 - 2)]
  have hd0 : Geom.perpendicularDistance ⟨20/9, 0⟩ ⟨-(20/9), -(10/9), 20/9, 10/9⟩ =
      400/81 / Real.sqrt (2000/81) := by
    rw [Geom.perpendicularDistance]
    norm_num
    rw [abs_of_nonneg (by norm_num : (0:ℝ) ≤ 400/81)]
  have hd1 : Geom.perpendicularDistance ⟨10 * Real.sqrt 2 / 9, 5 * Real.sqrt 2 / 9⟩
      ⟨-(20/9), -(10/9), 20/9, 10/9⟩ = 0 := by
    rw [Geom.perpendicularDistance]
    norm_num
    ring
  have hd2 : Geom.perpendicularDistance ⟨0, 10/9⟩ ⟨-(20/9), -(10/9), 20/9, 10/9⟩ =
      400/81 / Real.sqrt (2000/81) := by
    rw [Geom.perpendicularDistance]
    norm_num
    congr 1
    rw [abs_eq (by norm_num : (0:ℝ) ≤ 400/81)]
    left
    ring
  have hd3 : Geom.perpendicularDistance ⟨-(10 * Real.sqrt 2 / 9), 5 * Real.sqrt 2 / 9⟩
      ⟨-(20/9), -(10/9), 20/9, 10/9⟩ = 400 * Real.sqrt 2 / 81 / Real.sqrt (2000/81) := by
    rw [Geom.perpendicularDistance]
    norm_num
    congr 1
    rw [abs_eq (by positivity)]
    right
    ring
  have hd4 : Geom.perpendicularDistance ⟨-(20/9), 0⟩ ⟨-(20/9), -(10/9), 20/9, 10/9⟩ =
      400/81 / Real.sqrt (2000/81) := by
    rw [Geom.perpendicularDistance]
    norm_num
    congr 1
    rw [abs_eq (by norm_num : (0:ℝ) ≤ 400/81)]
    left
    ring
  have hd5 : Geom.perpendicularDistance ⟨-(10 * Real.sqrt 2 / 9), -(5 * Real.sqrt 2 / 9)⟩
      ⟨-(20/9), -(10/9), 20/9, 10/9⟩ = 0 := by
    rw [Geom.perpendicularDistance]
    norm_num
    ring
  have hd6 : Geom.perpendicularDistance ⟨0, -(10/9)⟩ ⟨-(20/9), -(10/9), 20/9, 10/9⟩ =
      400/81 / Real.sqrt (2000/81) := by
    rw [Geom.perpendicularDistance]
    norm_num
    congr 1
    rw [abs_eq (by norm_num : (0:ℝ) ≤ 400/81)]
    left
    ring
  have hd7 : Geom.perpendicularDistance ⟨10 * Real.sqrt 2 / 9, -(5 * Real.sqrt 2 / 9)⟩
      ⟨-(20/9), -(10/9), 20/9, 10/9⟩ = 400 * Real.sqrt 2 / 81 / Real.sqrt (2000/81) := by
    rw [Geom.perpendicularDistance]
    norm_num
    congr 1
    rw [abs_eq (by positivity)]
    left
    ring
  have he0 : Geom.perpendicularDistance ⟨20/9, 0⟩ ⟨-(20/9), 10/9, 20/9, -(10/9)⟩ =
      400/81 / Real.sqrt (2000/81) := by
    rw [Geom.perpendicularDistance]
    norm_num
    congr 1
    rw [abs_eq (by norm_num : (0:ℝ) ≤ 400/81)]
    left
    ring
  have he1 : Geom.perpendicularDistance ⟨10 * Real.sqrt 2 / 9, 5 * Real.sqrt 2 / 9⟩
      ⟨-(20/9), 10/9, 20/9, -(10/9)⟩ = 400 * Real.sqrt 2 / 81 / Real.sqrt (2000/81) := by
    rw [Geom.perpendicularDistance]
    norm_num
    congr 1
    rw [abs_eq (by positivity)]
    right
    ring
  have he2 : Geom.perpendicularDistance ⟨0, 10/9⟩ ⟨-(20/9), 10/9, 20/9, -(10/9)⟩ =
      400/81 / Real.sqrt (2000/81) := by
    rw [Geom.perpendicularDistance]
    norm_num
    congr 1
    rw [abs_eq (by norm_num : (0:ℝ) ≤ 400/81)]
    left
    ring
  have he3 : Geom.perpendicularDistance ⟨-(10 * Real.sqrt 2 / 9), 5 * Real.sqrt 2 / 9⟩
      ⟨-(20/9), 10/9, 20/9, -(10/9)⟩ = 0 := by
    rw [Geom.perpendicularDistance]
    norm_num
    ring
  have he4 : Geom.perpendicularDistance ⟨-(20/9), 0⟩ ⟨-(20/9), 10/9, 20/9, -(10/9)⟩ =
      400/81 / Real.sqrt (2000/81) := by
    rw [Geom.perpendicularDistance]
    norm_num
    congr 1
    rw [abs_eq (by norm_num : (0:ℝ) ≤ 400/81)]
    left
    ring
  have he5 : Geom.perpendicularDistance ⟨-(10 * Real.sqrt 2 / 9), -(5 * Real.sqrt 2 / 9)⟩
      ⟨-(20/9), 10/9, 20/9, -(10/9)⟩ = 400 * Real.sqrt 2 / 81 / Real.sqrt (2000/81) := by
    rw [Geom.perpendicularDistance]
    norm_num
    congr 1
    rw [abs_eq (by positivity)]
    left
    ring
  have he6 : Geom.perpendicularDistance ⟨0, -(10/9)⟩ ⟨-(20/9), 10/9, 20/9, -(10/9)⟩ =
      400/81 / Real.sqrt (2000/81) := by
    rw [Geom.perpendicularDistance]
    norm_num
    congr 1
    rw [abs_eq (by norm_num : (0:ℝ) ≤ 400/81)]
    left
    ring
  have he7 : Geom.perpendicularDistance ⟨10 * Real.sqrt 2 / 9, -(5 * Real.sqrt 2 / 9)⟩
      ⟨-(20/9), 10/9, 20/9, -(10/9)⟩ = 0 := by
    rw [Geom.perpendicularDistance]
    norm_num
    ring
  have hmax1 : jsMaxList [400/81 / Real.sqrt (2000/81), 0, 400/81 / Real.sqrt (2000/81),
      400 * Real.sqrt 2 / 81 / Real.sqrt (2000/81), 400/81 / Real.sqrt (2000/81), 0,
      400/81 / Real.sqrt (2000/81), 400 * Real.sqrt 2 / 81 / Real.sqrt (2000/81)] =
      400 * Real.sqrt 2 / 81 / Real.sqrt (2000/81) := by
    have hab : (400:ℝ)/81 / Real.sqrt (2000/81) ≤
        400 * Real.sqrt 2 / 81 / Real.sqrt (2000/81) := by
      gcongr
      nlinarith [hs2, hs2nn]
    refine jsMaxList_eq _ _ (by simp) ?_
    intro x hx
    simp only [List.mem_cons, List.not_mem_nil, or_false] at hx
    rcases hx with rfl | rfl | rfl | rfl | rfl | rfl | rfl | rfl
    · exact hab
    · positivity
    · exact hab
    · exact le_rfl
    · exact hab
    · positivity
    · exact hab
    · exact le_rfl
  have hmax2 : jsMaxList [400/81 / Real.sqrt (2000/81),
      400 * Real.sqrt 2 / 81 / Real.sqrt (2000/81), 400/81 / Real.sqrt (2000/81), 0,
      400/81 / Real.sqrt (2000/81), 400 * Real.sqrt 2 / 81 / Real.sqrt (2000/81),
      400/81 / Real.sqrt (2000/81), 0] =
      400 * Real.sqrt 2 / 81 / Real.sqrt (2000/81) := by
    have hab : (400:ℝ)/81 / Real.sqrt (2000/81) ≤
        400 * Real.sqrt 2 / 81 / Real.sqrt (2000/81) := by
      gcongr
      nlinarith [hs2, hs2nn]
    refine jsMaxList_eq _ _ (by simp) ?_
    intro x hx
    simp only [List.mem_cons, List.not_mem_nil, or_false] at hx
    rcases hx with rfl | rfl | rfl | rfl | rfl | rfl | rfl | rfl
    · exact hab
    · exact le_rfl
    · exact hab
    · positivity
    · exact hab
    · exact le_rfl
    · exact hab
    · positivity
  rw [Geom.SegmentFromPoints, if_neg (by simp)]
  simp only [List.map_cons, List.map_nil]
  rw [hxmin, hxmax, hymin, hymax]
  rw [hd0, hd1, hd2, hd3, hd4, hd5, hd6, hd7, he0, he1, he2, he3, he4, he5, he6, he7]
  rw [hmax1, hmax2, if_pos le_rfl]

theorem c9_el_cx : (Ellipse.arcEndpointToCenterParameters 2 0 2 1 0 0 1 (-2) 0).cx = 0 := by
  simp only [Ellipse.arcEndpointToCenterParameters]
  norm_num

theorem c9_el_cy : (Ellipse.arcEndpointToCenterParameters 2 0 2 1 0 0 1 (-2) 0).cy = 0 := by
  simp only [Ellipse.arcEndpointToCenterParameters]
  norm_num

theorem c9_el_rx : (Ellipse.arcEndpointToCenterParameters 2 0 2 1 0 0 1 (-2) 0).rx = 2 := by
  simp only [Ellipse.arcEndpointToCenterParameters]
  norm_num

theorem c9_el_ry : (Ellipse.arcEndpointToCenterParameters 2 0 2 1 0 0 1 (-2) 0).ry = 1 := by
  simp only [Ellipse.arcEndpointToCenterParameters]
  norm_num

theorem c9_pt1 : Ellipse.PointWithPerspective (-2) 0 ⟨0, 0, 10⟩
    (Mat.ofRows [[1, 0, 0, 0], [0, 1, 0, 0], [0, 0, 1, 1], [0, 0, 0, 1]]) =
    .ok ⟨-(20/9), 0⟩ := by
  rw [Ellipse.PointWithPerspective,
    if_neg (fun h => h.elim (fun h1 => h1 rfl) (fun h2 => h2 rfl))]
  have hp : Geom.PerspectiveXYProjection ⟨0, 0, 10⟩
      ((Mat.ofRows [[1, 0, 0, 0], [0, 1, 0, 0], [0, 0, 1, 1], [0, 0, 0, 1]]).Mult
        (Mat.ofRows [[-2, 0, 0, 1]]).Transpose) = .ok [⟨-(20/9), 0⟩] := by
    rw [Geom.PerspectiveXYProjection, if_neg (fun h => h rfl)]
    rw [show List.range ((Mat.ofRows [[(1:ℝ), 0, 0, 0], [0, 1, 0, 0], [0, 0, 1, 1],
      [0, 0, 0, 1]]).Mult (Mat.ofRows [[(-2:ℝ), 0, 0, 1]]).Transpose).n = [0] from rfl]
    simp only [List.map_cons, List.map_nil]
    norm_num [Mat.Mult_e, Finset.sum_range_succ, P2.mk.injEq]
  simp only [hp, jsBind_ok, jsPure]
  rfl

theorem c9_err_ge : ¬ (400 * Real.sqrt 2 / 81 / Real.sqrt (2000/81) < 0.99) := by
  have hs2 : Real.sqrt 2 * Real.sqrt 2 = 2 := Real.mul_self_sqrt (by norm_num)
  have hs2nn : (0:ℝ) ≤ Real.sqrt 2 := Real.sqrt_nonneg 2
  have h14 : (1.4:ℝ) ≤ Real.sqrt 2 := by nlinarith
  have hDsq : Real.sqrt (2000/81) * Real.sqrt (2000/81) = 2000/81 :=
    Real.mul_self_sqrt (by norm_num)
  have hDnn : (0:ℝ) ≤ Real.sqrt (2000/81) := Real.sqrt_nonneg _
  have hD5 : Real.sqrt (2000/81) ≤ 5 := by nlinarith
  have hDpos : (0:ℝ) < Real.sqrt (2000/81) := Real.sqrt_pos.mpr (by norm_num)
  rw [not_lt, le_div_iff₀ hDpos]
  nlinarith

theorem c9_ewp : ∃ co : Conic,
    Ellipse.EllipseWithPerspective 0 0 2 1 ⟨0, 0, 10⟩
      (Mat.ofRows [[1, 0, 0, 0], [0, 1, 0, 0], [0, 0, 1, 1], [0, 0, 0, 1]]) =
    .ok ⟨Ellipse.EllipseStandardForm co,
      ⟨⟨-(20/9), -(10/9), 20/9, 10/9⟩, 400 * Real.sqrt 2 / 81 / Real.sqrt (2000/81)⟩,
      [⟨20/9, 0⟩, ⟨10 * Real.sqrt 2 / 9, 5 * Real.sqrt 2 / 9⟩, ⟨0, 10/9⟩,
       ⟨-(10 * Real.sqrt 2 / 9), 5 * Real.sqrt 2 / 9⟩, ⟨-(20/9), 0⟩,
       ⟨-(10 * Real.sqrt 2 / 9), -(5 * Real.sqrt 2 / 9)⟩, ⟨0, -(10/9)⟩,
       ⟨10 * Real.sqrt 2 / 9, -(5 * Real.sqrt 2 / 9)⟩]⟩ := by
  have hfit : ∃ co, Geom.EllipseFromPoints
      [⟨20/9, 0⟩, ⟨10 * Real.sqrt 2 / 9, 5 * Real.sqrt 2 / 9⟩, ⟨0, 10/9⟩,
       ⟨-(10 * Real.sqrt 2 / 9), 5 * Real.sqrt 2 / 9⟩, ⟨-(20/9), 0⟩,
       ⟨-(10 * Real.sqrt 2 / 9), -(5 * Real.sqrt 2 / 9)⟩, ⟨0, -(10/9)⟩,
       ⟨10 * Real.sqrt 2 / 9, -(5 * Real.sqrt 2 / 9)⟩] = .ok co := by
    rw [Geom.EllipseFromPoints, if_neg (by simp)]
    exact ⟨_, rfl⟩
  obtain ⟨co, hco⟩ := hfit
  refine ⟨co, ?_⟩
  rw [Ellipse.EllipseWithPerspective,
    if_neg (fun h => h.elim (fun h1 => h1 rfl) (fun h2 => h2 rfl))]
  simp only [c9_proj, c9_segment, hco, jsBind_ok, jsPure]

/-- The full C9 evaluation: the arc branch is taken, the argument array is
overwritten in place, and its final value (also returned as the `arc` field)
has `-20/9` at index 5 where the input had `-2`. -/
theorem arcWP_c9_eval :
    ∃ (e : StdEllipse) (r0 r1 r2 r3 r4 : ℝ),
      Ellipse.ArcWithPerspective ⟨2, 0⟩ [2, 1, 0, 0, 1, -2, 0]
        ⟨⟨0, 0, 10⟩, Mat.ofRows [[1, 0, 0, 0], [0, 1, 0, 0], [0, 0, 1, 1], [0, 0, 0, 1]]⟩ =
      .ok (⟨e, [r0, r1, r2, r3, r4, -(20/9), 0]⟩, [r0, r1, r2, r3, r4, -(20/9), 0]) := by
  obtain ⟨co, hewp⟩ := c9_ewp
  obtain ⟨p0, hp0⟩ := pwp_ok_of_4x4 2 0 ⟨0, 0, 10⟩
    (Mat.ofRows [[1, 0, 0, 0], [0, 1, 0, 0], [0, 0, 1, 1], [0, 0, 0, 1]]) rfl rfl
  simp only [Ellipse.ArcWithPerspective,
    show ([2, 1, 0, 0, 1, -2, 0] : List ℝ).getD 0 0 = 2 from rfl,
    show ([2, 1, 0, 0, 1, -2, 0] : List ℝ).getD 1 0 = 1 from rfl,
    show ([2, 1, 0, 0, 1, -2, 0] : List ℝ).getD 2 0 = 0 from rfl,
    show ([2, 1, 0, 0, 1, -2, 0] : List ℝ).getD 3 0 = 0 from rfl,
    show ([2, 1, 0, 0, 1, -2, 0] : List ℝ).getD 4 0 = 1 from rfl,
    show ([2, 1, 0, 0, 1, -2, 0] : List ℝ).getD 5 0 = -2 from rfl,
    show ([2, 1, 0, 0, 1, -2, 0] : List ℝ).getD 6 0 = 0 from rfl,
    c9_el_cx, c9_el_cy, c9_el_rx, c9_el_ry, hewp, hp0, c9_pt1, jsBind_ok]
  simp only [if_neg c9_err_ge]
  exact ⟨_, _, _, _, _, _, rfl⟩

/-- C9 counterexample: `ArcWithPerspective` is not pure in its arc argument
tuple.  For the arc from (2, 0) to (-2, 0) with radii 2 and 1 under eye
(0, 0, 10) and a unit z-translation, the call succeeds through the arc
branch and the final value of the argument array differs from the input
`[2, 1, 0, 0, 1, -2, 0]`: index 5 now holds the projected endpoint
x-coordinate -20/9 instead of -2. -/
theorem c9_arc_mutates_argument_counterexample :
    ∃ (ret : Ellipse.ArcRet) (avF : List ℝ),
      Ellipse.ArcWithPerspective ⟨2, 0⟩ [2, 1, 0, 0, 1, -2, 0]
        ⟨⟨0, 0, 10⟩, Mat.ofRows [[1, 0, 0, 0], [0, 1, 0, 0], [0, 0, 1, 1], [0, 0, 0, 1]]⟩ =
        .ok (ret, avF) ∧ avF ≠ [2, 1, 0, 0, 1, -2, 0] := by
  obtain ⟨e, r0, r1, r2, r3, r4, h⟩ := arcWP_c9_eval
  refine ⟨_, _, h, ?_⟩
  intro hEq
  norm_num at hEq

/-- Witness for C9 amended: at the concrete mutating input, the returned
record aliases the mutated argument array. -/
theorem c9_arc_returns_mutated_argument_witness :
    ∃ (ret : Ellipse.ArcRet) (avF : List ℝ),
      Ellipse.ArcWithPerspective ⟨2, 0⟩ [2, 1, 0, 0, 1, -2, 0]
        ⟨⟨0, 0, 10⟩, Mat.ofRows [[1, 0, 0, 0], [0, 1, 0, 0], [0, 0, 1, 1], [0, 0, 0, 1]]⟩ =
        .ok (ret, avF) ∧ ret.arc = avF := by
  obtain ⟨e, r0, r1, r2, r3, r4, h⟩ := arcWP_c9_eval
  exact ⟨_, _, h, c9_arc_returns_mutated_argument _ _ _ _ _ h⟩

/-! ## C1: exact recovery of the source ellipse without perspective distortion -/

/-- The eight projected sample points of the source ellipse `(0, 0, 2, 1)`
under eye `(0, 0, 2)` and the identity transform: the samples themselves
(the sample plane is `z = 0`, so the perspective scale is 1). -/
theorem c1_proj :
    Geom.PerspectiveXYProjection ⟨0, 0, 2⟩
      ((Mat.Identity 4).Mult (Mat.ofRows (Geom.sampleRows 0 0 2 1)).Transpose) =
    .ok [⟨2, 0⟩, ⟨Real.sqrt 2, Real.sqrt 2 / 2⟩, ⟨0, 1⟩,
         ⟨-Real.sqrt 2, Real.sqrt 2 / 2⟩, ⟨-2, 0⟩,
         ⟨-Real.sqrt 2, -(Real.sqrt 2 / 2)⟩, ⟨0, -1⟩,
         ⟨Real.sqrt 2, -(Real.sqrt 2 / 2)⟩] := by
  have hsr : Geom.sampleRows 0 0 2 1 =
      [[0 + 2 * Real.cos (Geom.sampleAngle 0), 0 + 1 * Real.sin (Geom.sampleAngle 0), 0, 1],
       [0 + 2 * Real.cos (Geom.sampleAngle 1), 0 + 1 * Real.sin (Geom.sampleAngle 1), 0, 1],
       [0 + 2 * Real.cos (Geom.sampleAngle 2), 0 + 1 * Real.sin (Geom.sampleAngle 2), 0, 1],
       [0 + 2 * Real.cos (Geom.sampleAngle 3), 0 + 1 * Real.sin (Geom.sampleAngle 3), 0, 1],
       [0 + 2 * Real.cos (Geom.sampleAngle 4), 0 + 1 * Real.sin (Geom.sampleAngle 4), 0, 1],
       [0 + 2 * Real.cos (Geom.sampleAngle 5), 0 + 1 * Real.sin (Geom.sampleAngle 5), 0, 1],
       [0 + 2 * Real.cos (Geom.sampleAngle 6), 0 + 1 * Real.sin (Geom.sampleAngle 6), 0, 1],
       [0 + 2 * Real.cos (Geom.sampleAngle 7), 0 + 1 * Real.sin (Geom.sampleAngle 7), 0, 1]] :=
    rfl
  rw [Geom.PerspectiveXYProjection, if_neg (fun h => h rfl)]
  rw [show List.range ((Mat.Identity 4).Mult
    (Mat.ofRows (Geom.sampleRows 0 0 2 1)).Transpose).n = [0, 1, 2, 3, 4, 5, 6, 7] from rfl]
  simp only [List.map_cons, List.map_nil]
  norm_num [Mat.Mult_e, hsr, Finset.sum_range_succ, P2.mk.injEq,
    cos_sa0, sin_sa0, cos_sa1, sin_sa1, cos_sa2, sin_sa2, cos_sa3, sin_sa3,
    cos_sa4, sin_sa4, cos_sa5, sin_sa5, cos_sa6, sin_sa6, cos_sa7, sin_sa7]
  ring

/-- `LinearRegression` succeeds whenever there are at least two points and
the x-denominator is nonzero. -/
theorem linReg_ok (pts : List P2) (h2 : ¬ pts.length < 2)
    (hdx : (pts.map fun p => p.x * p.x).sum -
      (pts.length : ℝ) * ((pts.map P2.x).sum / (pts.length : ℝ)) ^ 2 ≠ 0) :
    ∃ r, Geom.LinearRegression pts = .ok r := by
  simp only [Geom.LinearRegression]
  rw [if_neg h2, if_neg (fun hc => hdx hc.1)]
  exact ⟨_, rfl⟩

/-- The linear regression of the eight C1 sample points succeeds (their x
spread is nonzero). -/
theorem c1_reg : ∃ r, Geom.LinearRegression
    [⟨2, 0⟩, ⟨Real.sqrt 2, Real.sqrt 2 / 2⟩, ⟨0, 1⟩, ⟨-Real.sqrt 2, Real.sqrt 2 / 2⟩,
     ⟨-2, 0⟩, ⟨-Real.sqrt 2, -(Real.sqrt 2 / 2)⟩, ⟨0, -1⟩,
     ⟨Real.sqrt 2, -(Real.sqrt 2 / 2)⟩] = .ok r := by
  have hs2 : Real.sqrt 2 * Real.sqrt 2 = 2 := Real.mul_self_sqrt (by norm_num)
  apply linReg_ok
  · norm_num
  · have h16 : (([⟨2, 0⟩, ⟨Real.sqrt 2, Real.sqrt 2 / 2⟩, ⟨0, 1⟩,
        ⟨-Real.sqrt 2, Real.sqrt 2 / 2⟩, ⟨-2, 0⟩, ⟨-Real.sqrt 2, -(Real.sqrt 2 / 2)⟩,
        ⟨0, -1⟩, ⟨Real.sqrt 2, -(Real.sqrt 2 / 2)⟩] : List P2).map fun p =>
          p.x * p.x).sum = 16 := by
      simp only [List.map_cons, List.map_nil, List.sum_cons, List.sum_nil]
      linear_combination 4 * hs2
    have h0 : (([⟨2, 0⟩, ⟨Real.sqrt 2, Real.sqrt 2 / 2⟩, ⟨0, 1⟩,
        ⟨-Real.sqrt 2, Real.sqrt 2 / 2⟩, ⟨-2, 0⟩, ⟨-Real.sqrt 2, -(Real.sqrt 2 / 2)⟩,
        ⟨0, -1⟩, ⟨Real.sqrt 2, -(Real.sqrt 2 / 2)⟩] : List P2).map P2.x).sum = 0 := by
      simp only [List.map_cons, List.map_nil, List.sum_cons, List.sum_nil]
      ring
    rw [h16, h0]
    norm_num

@[simp] theorem rotateCols_m (A : Mat) (p q : ℕ) (c s : ℝ) :
    (rotateCols A p q c s).m = A.m := rfl

@[simp] theorem rotateCols_n (A : Mat) (p q : ℕ) (c s : ℝ) :
    (rotateCols A p q c s).n = A.n := rfl

theorem rotateCols_e (A : Mat) (p q : ℕ) (c s : ℝ) (i j : ℕ) :
    (rotateCols A p q c s).e i j =
      if j = p then c * A.e i p - s * A.e i q
      else if j = q then s * A.e i p + c * A.e i q
      else A.e i j := rfl

theorem colDot_comm (A : Mat) (p q : ℕ) : colDot A p q = colDot A q p := by
  simp only [colDot]
  exact Finset.sum_congr rfl fun i _ => mul_comm _ _

theorem colDot_rot_left (A : Mat) (c s : ℝ) (b : ℕ) (hb0 : b ≠ 0) (hb2 : b ≠ 2) :
    colDot (rotateCols A 0 2 c s) 0 b = c * colDot A 0 b - s * colDot A 2 b := by
  have hL : ∀ i, (rotateCols A 0 2 c s).e i 0 = c * A.e i 0 - s * A.e i 2 := fun i => rfl
  have hR : ∀ i, (rotateCols A 0 2 c s).e i b = A.e i b := by
    intro i
    rw [rotateCols_e, if_neg hb0, if_neg hb2]
  calc colDot (rotateCols A 0 2 c s) 0 b
      = ∑ i ∈ Finset.range A.m, (c * A.e i 0 - s * A.e i 2) * A.e i b :=
        Finset.sum_congr rfl fun i _ => by rw [hL i, hR i]
    _ = c * colDot A 0 b - s * colDot A 2 b := by
        simp only [colDot]
        rw [Finset.mul_sum, Finset.mul_sum, ← Finset.sum_sub_distrib]
        exact Finset.sum_congr rfl fun i _ => by ring

theorem colDot_rot_right (A : Mat) (c s : ℝ) (b : ℕ) (hb0 : b ≠ 0) (hb2 : b ≠ 2) :
    colDot (rotateCols A 0 2 c s) b 2 = s * colDot A b 0 + c * colDot A b 2 := by
  have hL : ∀ i, (rotateCols A 0 2 c s).e i b = A.e i b := by
    intro i
    rw [rotateCols_e, if_neg hb0, if_neg hb2]
  have hR : ∀ i, (rotateCols A 0 2 c s).e i 2 = s * A.e i 0 + c * A.e i 2 := fun i => rfl
  calc colDot (rotateCols A 0 2 c s) b 2
      = ∑ i ∈ Finset.range A.m, A.e i b * (s * A.e i 0 + c * A.e i 2) :=
        Finset.sum_congr rfl fun i _ => by rw [hL i, hR i]
    _ = s * colDot A b 0 + c * colDot A b 2 := by
        simp only [colDot]
        rw [Finset.mul_sum, Finset.mul_sum, ← Finset.sum_add_distrib]
        exact Finset.sum_congr rfl fun i _ => by ring

theorem colDot_rot_both (A : Mat) (c s : ℝ) :
    colDot (rotateCols A 0 2 c s) 0 2 =
      c * s * colDot A 0 0 + (c ^ 2 - s ^ 2) * colDot A 0 2 - c * s * colDot A 2 2 := by
  have hL : ∀ i, (rotateCols A 0 2 c s).e i 0 = c * A.e i 0 - s * A.e i 2 := fun i => rfl
  have hR : ∀ i, (rotateCols A 0 2 c s).e i 2 = s * A.e i 0 + c * A.e i 2 := fun i => rfl
  calc colDot (rotateCols A 0 2 c s) 0 2
      = ∑ i ∈ Finset.range A.m,
          (c * A.e i 0 - s * A.e i 2) * (s * A.e i 0 + c * A.e i 2) :=
        Finset.sum_congr rfl fun i _ => by rw [hL i, hR i]
    _ = c * s * colDot A 0 0 + (c ^ 2 - s ^ 2) * colDot A 0 2 - c * s * colDot A 2 2 := by
        simp only [colDot]
        rw [Finset.mul_sum, Finset.mul_sum, Finset.mul_sum,
          ← Finset.sum_add_distrib, ← Finset.sum_sub_distrib]
        exact Finset.sum_congr rfl fun i _ => by ring

theorem colDot_rot_diag0 (A : Mat) (c s : ℝ) :
    colDot (rotateCols A 0 2 c s) 0 0 =
      c ^ 2 * colDot A 0 0 - 2 * (c * s) * colDot A 0 2 + s ^ 2 * colDot A 2 2 := by
  have hL : ∀ i, (rotateCols A 0 2 c s).e i 0 = c * A.e i 0 - s * A.e i 2 := fun i => rfl
  calc colDot (rotateCols A 0 2 c s) 0 0
      = ∑ i ∈ Finset.range A.m,
          (c * A.e i 0 - s * A.e i 2) * (c * A.e i 0 - s * A.e i 2) :=
        Finset.sum_congr rfl fun i _ => by rw [hL i]
    _ = c ^ 2 * colDot A 0 0 - 2 * (c * s) * colDot A 0 2 + s ^ 2 * colDot A 2 2 := by
        simp only [colDot]
        rw [Finset.mul_sum, Finset.mul_sum, Finset.mul_sum,
          ← Finset.sum_sub_distrib, ← Finset.sum_add_distrib]
        exact Finset.sum_congr rfl fun i _ => by ring

theorem colDot_rot_diag2 (A : Mat) (c s : ℝ) :
    colDot (rotateCols A 0 2 c s) 2 2 =
      s ^ 2 * colDot A 0 0 + 2 * (c * s) * colDot A 0 2 + c ^ 2 * colDot A 2 2 := by
  have hR : ∀ i, (rotateCols A 0 2 c s).e i 2 = s * A.e i 0 + c * A.e i 2 := fun i => rfl
  calc colDot (rotateCols A 0 2 c s) 2 2
      = ∑ i ∈ Finset.range A.m,
          (s * A.e i 0 + c * A.e i 2) * (s * A.e i 0 + c * A.e i 2) :=
        Finset.sum_congr rfl fun i _ => by rw [hR i]
    _ = s ^ 2 * colDot A 0 0 + 2 * (c * s) * colDot A 0 2 + c ^ 2 * colDot A 2 2 := by
        simp only [colDot]
        rw [Finset.mul_sum, Finset.mul_sum, Finset.mul_sum,
          ← Finset.sum_add_distrib, ← Finset.sum_add_distrib]
        exact Finset.sum_congr rfl fun i _ => by ring

theorem colDot_rot_untouched (A : Mat) (c s : ℝ) (a b : ℕ)
    (ha0 : a ≠ 0) (ha2 : a ≠ 2) (hb0 : b ≠ 0) (hb2 : b ≠ 2) :
    colDot (rotateCols A 0 2 c s) a b = colDot A a b := by
  have hL : ∀ i, (rotateCols A 0 2 c s).e i a = A.e i a := by
    intro i
    rw [rotateCols_e, if_neg ha0, if_neg ha2]
  have hR : ∀ i, (rotateCols A 0 2 c s).e i b = A.e i b := by
    intro i
    rw [rotateCols_e, if_neg hb0, if_neg hb2]
  exact Finset.sum_congr rfl fun i _ => by rw [hL i, hR i]

theorem s2mul : Real.sqrt 2 * Real.sqrt 2 = 2 := Real.mul_self_sqrt (by norm_num)

theorem s2sq : Real.sqrt 2 ^ 2 = 2 := Real.sq_sqrt (by norm_num)

/-- The Gram matrix of the C1 design matrix: diagonal `(48, 4, 3, 16, 4)`
plus the single symmetric off-diagonal pair `G(0,2) = G(2,0) = 4`. -/
theorem c1_gram : ∀ pqv ∈ [((0:ℕ), (0:ℕ), (48:ℝ)), (0, 1, 0), (0, 2, 4), (0, 3, 0), (0, 4, 0),
    (1, 0, 0), (1, 1, 4), (1, 2, 0), (1, 3, 0), (1, 4, 0),
    (2, 0, 4), (2, 1, 0), (2, 2, 3), (2, 3, 0), (2, 4, 0),
    (3, 0, 0), (3, 1, 0), (3, 2, 0), (3, 3, 16), (3, 4, 0),
    (4, 0, 0), (4, 1, 0), (4, 2, 0), (4, 3, 0), (4, 4, 4)],
    colDot (Mat.ofRows
      [[4, 0, 0, 2, 0],
       [2, 1, 1/2, Real.sqrt 2, Real.sqrt 2 / 2],
       [0, 0, 1, 0, 1],
       [2, -1, 1/2, -Real.sqrt 2, Real.sqrt 2 / 2],
       [4, 0, 0, -2, 0],
       [2, 1, 1/2, -Real.sqrt 2, -(Real.sqrt 2 / 2)],
       [0, 0, 1, 0, -1],
       [2, -1, 1/2, Real.sqrt 2, -(Real.sqrt 2 / 2)]]) pqv.1 pqv.2.1 = pqv.2.2 := by
  intro pqv h
  simp only [List.mem_cons, List.not_mem_nil, or_false] at h
  rcases h with rfl | rfl | rfl | rfl | rfl | rfl | rfl | rfl | rfl | rfl | rfl | rfl | rfl |
    rfl | rfl | rfl | rfl | rfl | rfl | rfl | rfl | rfl | rfl | rfl | rfl <;>
    (norm_num [colDot, Finset.sum_range_succ]; try ring_nf; try simp [s2sq]; try norm_num)

/-- A working matrix with pairwise orthogonal columns makes the Jacobi loop
exit immediately, for any remaining fuel. -/
theorem svdLoop_succ_orth (fuel : ℕ) (A V : Mat)
    (h : ∀ pq ∈ pairList A.n, colDot A pq.1 pq.2 = 0) :
    svdLoop (fuel + 1) (A, V) = (A, V) := by
  rw [svdLoop_succ, findMaxPair_orth A h, if_pos]
  rw [svdEps]
  norm_num
